import Mathlib

/-!
Shallow embedding of the TownRecord per-town session controller
(src/services/townService/src/lib/CoveyTownController.ts) together with the
entity types it manipulates (src/services/townService/src/CoveyTypes.ts and
the client-visible types of TownsServiceClient).

Modelling conventions, stated once:

* JS numbers that hold map coordinates are modelled as rationals so that the
  division by 2 in the bounding-box helper is exact; JS numbers that hold
  occupancy limits are modelled as integers.
* The listener fan-out is modelled as an append-only event log inside the
  state: one log entry per emission site (the source loops the same emission
  over every registered listener; the claims only depend on which emissions
  happen and in which order).
* Object back-references (player.activeConversationArea pointing at a live
  conversation-area object) are modelled by the area label; the controller
  keeps labels of active areas unique, and every operation of the source
  locates areas through find-by-label, which the embedding mirrors.
  Comparisons that are object identity in the source become label
  comparisons here.
* In-place mutation of the object found by a find call is modelled by
  rewriting the first list element with the same label or id, which is the
  element the source find returns.
* Sources of nondeterminism of the source (nanoid ids, the awaited video
  credential) are passed in as explicit parameters.
-/

inductive Direction where
  | front
  | back
  | left
  | right
deriving DecidableEq, Repr

/-- UserLocation from CoveyTypes.ts. -/
structure UserLocation where
  x : ℚ
  y : ℚ
  rotation : Direction
  moving : Bool
  conversationLabel : Option String
deriving DecidableEq, Repr

/-- BoundingBox from the client types: a centre point plus width and height. -/
structure BoundingBox where
  x : ℚ
  y : ℚ
  width : ℚ
  height : ℚ
deriving DecidableEq, Repr

inductive ConversationAreaStatus where
  | AvailableToRequest
  | DoNotDisturb
  | Public
deriving DecidableEq, Repr

/-- JoinRequest from TownsServiceClient.ts. -/
structure JoinRequest where
  id : String
  playerId : String
  conversationLabel : String
deriving DecidableEq, Repr

/-- ServerConversationArea from TownsServiceClient.ts. The topic is optional
in the source type; the empty-topic guard of addConversationArea compares
against the empty string. -/
structure ServerConversationArea where
  label : String
  topic : Option String
  occupantsByID : List String
  boundingBox : BoundingBox
  status : ConversationAreaStatus
  maxOccupants : Option Int
  joinRequests : List JoinRequest
deriving DecidableEq, Repr

inductive PlayerPermissions where
  | Normal
  | Admin
deriving DecidableEq, Repr

/-- The server Player entity (types/Player). Back-references to the active
conversation area are stored as the area label (see the modelling notes). -/
structure Player where
  id : String
  userName : String
  location : UserLocation
  permissions : PlayerPermissions
  activeConversationArea : Option String
  activeJoinRequest : Option JoinRequest
deriving DecidableEq, Repr

/-- The server PlayerSession entity (types/PlayerSession): binds a player to
a session token and, once issued, a video token. -/
structure PlayerSession where
  playerId : String
  sessionToken : String
  videoToken : Option String
deriving DecidableEq, Repr

/-- One entry of the JoinRequestList that getJoinRequests builds. -/
structure JoinRequestListEntry where
  id : String
  playerId : String
  userName : String
  conversationLabel : String
  conversationTopic : Option String
deriving DecidableEq, Repr

/-- The town events the controller fans out to its listeners, with the
affected entity identified by id or label. -/
inductive TownEvent where
  | playerJoined (playerId : String)
  | playerMoved (playerId : String)
  | playerDisconnected (playerId : String)
  | playerPermissionUpdated (playerId : String)
  | conversationAreaUpdated (label : String)
  | conversationAreaDestroyed (label : String)
  | townDestroyed
deriving DecidableEq, Repr

/-- The mutable state owned by one CoveyTownController, together with the
event log that stands in for the listener fan-out. -/
structure TownState where
  players : List Player
  sessions : List PlayerSession
  conversationAreas : List ServerConversationArea
  events : List TownEvent
deriving DecidableEq, Repr

/-- The state of a freshly constructed controller: no players, no sessions,
no conversation areas. -/
def initialTown : TownState :=
  { players := [], sessions := [], conversationAreas := [], events := [] }

/-- Rewrite the first list element with the given label, mirroring an
in-place mutation of the object returned by find-by-label. -/
def updateFirstArea : List ServerConversationArea → String →
    (ServerConversationArea → ServerConversationArea) → List ServerConversationArea
  | [], _, _ => []
  | a :: rest, lab, f =>
      if a.label = lab then f a :: rest else a :: updateFirstArea rest lab f

/-- Rewrite the first list element with the given player id, mirroring an
in-place mutation of the object returned by find-by-id. -/
def updateFirstPlayer : List Player → String → (Player → Player) → List Player
  | [], _, _ => []
  | p :: rest, pid, f =>
      if p.id = pid then f p :: rest else p :: updateFirstPlayer rest pid f

/-- Rewrite the first session with the given session token. -/
def updateFirstSession : List PlayerSession → String →
    (PlayerSession → PlayerSession) → List PlayerSession
  | [], _, _ => []
  | s :: rest, tok, f =>
      if s.sessionToken = tok then f s :: rest else s :: updateFirstSession rest tok f

/-- Remove the first area with the given label, mirroring the splice on the
index returned by findIndex. -/
def eraseFirstArea : List ServerConversationArea → String → List ServerConversationArea
  | [], _ => []
  | a :: rest, lab => if a.label = lab then rest else a :: eraseFirstArea rest lab

def TownState.getArea (s : TownState) (lab : String) : Option ServerConversationArea :=
  s.conversationAreas.find? (fun c => c.label = lab)

def TownState.getPlayer (s : TownState) (pid : String) : Option Player :=
  s.players.find? (fun p => p.id = pid)

def updArea (s : TownState) (lab : String)
    (f : ServerConversationArea → ServerConversationArea) : TownState :=
  { s with conversationAreas := updateFirstArea s.conversationAreas lab f }

def updPlayer (s : TownState) (pid : String) (f : Player → Player) : TownState :=
  { s with players := updateFirstPlayer s.players pid f }

def emitEvent (s : TownState) (e : TownEvent) : TownState :=
  { s with events := s.events ++ [e] }

/-- The JS idiom `label or undefined` applied to an optional string: an
empty string is falsy and collapses to undefined. -/
def jsLabelOr : Option String → Option String
  | some "" => none
  | x => x

/-- boxesOverlap from CoveyTownController.ts: convert each centre-size box
to corner form and test the strict separating-axis disjunction. -/
def boxesOverlap (box1 box2 : BoundingBox) : Bool :=
  let r1x1 := box1.x - box1.width / 2
  let r1x2 := box1.x + box1.width / 2
  let r1y1 := box1.y - box1.height / 2
  let r1y2 := box1.y + box1.height / 2
  let r2x1 := box2.x - box2.width / 2
  let r2x2 := box2.x + box2.width / 2
  let r2y1 := box2.y - box2.height / 2
  let r2y2 := box2.y + box2.height / 2
  let noOverlap :=
    decide (r1x1 ≥ r2x2) || decide (r2x1 ≥ r1x2) ||
    decide (r1y1 ≥ r2y2) || decide (r2y1 ≥ r1y2)
  !noOverlap

/-- Modelled from the spec: the server Player class (types/Player) is not
under src, only its callers and tests are. Its isWithin method decides
whether the player position falls within the box of a conversation area,
strictly inside the rectangle spanned by the centre-size bounding box. -/
def Player.isWithin (p : Player) (conv : ServerConversationArea) : Bool :=
  decide (p.location.x > conv.boundingBox.x - conv.boundingBox.width / 2) &&
  decide (p.location.x < conv.boundingBox.x + conv.boundingBox.width / 2) &&
  decide (p.location.y > conv.boundingBox.y - conv.boundingBox.height / 2) &&
  decide (p.location.y < conv.boundingBox.y + conv.boundingBox.height / 2)

/-- removeJoinRequest from CoveyTownController.ts: deny the given join
request. Fails when the area named by the request or the requesting player
no longer exists; otherwise filters the request out of the area list,
clears the player back-reference, and emits the two events. -/
def removeJoinRequest (s : TownState) (joinRequest : JoinRequest) : Bool × TownState :=
  match s.getArea joinRequest.conversationLabel, s.getPlayer joinRequest.playerId with
  | some conversationArea, some player =>
      let s1 := updArea s conversationArea.label
        (fun c => { c with
          joinRequests := c.joinRequests.filter fun request => request.id ≠ joinRequest.id })
      let s2 := updPlayer s1 player.id (fun p => { p with activeJoinRequest := none })
      let s3 := emitEvent s2 (TownEvent.playerMoved player.id)
      let s4 := emitEvent s3 (TownEvent.conversationAreaUpdated conversationArea.label)
      (true, s4)
  | _, _ => (false, s)

/-- The forEach loops of the source that deny a list of pending join
requests iterate an array snapshot (each deny reassigns the joinRequests
field to a fresh filtered array, leaving the array being iterated
untouched); the fold over the captured list mirrors that. -/
def removeAllJoinRequests (s : TownState) (pending : List JoinRequest) : TownState :=
  pending.foldl (fun st joinRequest => (removeJoinRequest st joinRequest).2) s

/-- The capacity re-check inside acceptJoinRequest: once the occupant count
of the area equals its capacity, every remaining pending request is denied
(a live read of the area followed by the snapshot forEach). -/
def capacityDenyAll (s : TownState) (lab : String) : TownState :=
  match s.getArea lab with
  | some ca =>
      if ca.maxOccupants = some (ca.occupantsByID.length : Int) then
        removeAllJoinRequests s ca.joinRequests
      else s
  | none => s

/-- acceptJoinRequest from CoveyTownController.ts: accept the given join
request. Fails when the area named by the request or the requesting player
no longer exists; otherwise appends the player to the occupant list, sets
the membership back-reference and the location label, removes the request
from both sides, auto-denies every remaining pending request once the
occupant count equals the capacity, and emits the two events. The forEach
of the auto-deny iterates the array snapshot taken before the first
reassignment, which the fold over the captured list mirrors. -/
def acceptJoinRequest (s : TownState) (joinRequest : JoinRequest) : Bool × TownState :=
  match s.getArea joinRequest.conversationLabel, s.getPlayer joinRequest.playerId with
  | some conversationArea, some player =>
      let s1 := updArea s conversationArea.label
        (fun c => { c with occupantsByID := c.occupantsByID ++ [player.id] })
      let s2 := updPlayer s1 player.id
        (fun p => { p with activeConversationArea := some conversationArea.label })
      let s3 := updPlayer s2 player.id
        (fun p => { p with location :=
          { p.location with conversationLabel := some conversationArea.label } })
      let s4 := updArea s3 conversationArea.label
        (fun c => { c with
          joinRequests := c.joinRequests.filter fun request => request.id ≠ joinRequest.id })
      let s5 := updPlayer s4 player.id (fun p => { p with activeJoinRequest := none })
      let s6 := capacityDenyAll s5 conversationArea.label
      let s7 := emitEvent s6 (TownEvent.playerMoved player.id)
      let s8 := emitEvent s7 (TownEvent.conversationAreaUpdated conversationArea.label)
      (true, s8)
  | _, _ => (false, s)

/-- The forEach loop accepting every pending join request of an area whose
admin leaves, iterating an array snapshot exactly as the deny loops do. -/
def acceptAllJoinRequests (s : TownState) (pending : List JoinRequest) : TownState :=
  pending.foldl (fun st joinRequest => (acceptJoinRequest st joinRequest).2) s

/-- Remove one occurrence of a player id from the occupant list of an area
(the splice on the first index found by findIndex). -/
def eraseOccupantF (pid : String) (c : ServerConversationArea) : ServerConversationArea :=
  { c with occupantsByID := c.occupantsByID.erase pid }

/-- Demote a player to the Normal permission. -/
def demoteF (p : Player) : Player :=
  { p with permissions := PlayerPermissions.Normal }

/-- Force the status of an area to Public. -/
def setPublicF (c : ServerConversationArea) : ServerConversationArea :=
  { c with status := ConversationAreaStatus.Public }

/-- The tail of removePlayerFromConversationArea: a live read of the
occupant list decides between destroying the now-empty area (splicing it
out and emitting the destroyed event) and emitting the update event. -/
def destroyOrUpdateArea (s : TownState) (lab : String) : TownState :=
  match s.getArea lab with
  | some conv3 =>
      if conv3.occupantsByID.length = 0 then
        emitEvent { s with conversationAreas := eraseFirstArea s.conversationAreas lab }
          (TownEvent.conversationAreaDestroyed lab)
      else
        emitEvent s (TownEvent.conversationAreaUpdated lab)
  | none => s

/-- removePlayerFromConversationArea from CoveyTownController.ts. The player
argument is the record of the player object at call time (the source is
handed the live object; destroySession calls it after the player left the
players list, so the record cannot always be looked up in the state).
Removes the player from the occupant list, denies the pending request the
player holds on this area if any, and when the player held Admin: demotes
them, emits the permission event, forces the status to Public and accepts
every pending join request (the forEach iterates the array snapshot taken
at that point, which the fold over the captured list mirrors). Finally the
area is destroyed when its occupant list emptied, else an update event is
emitted. -/
def removePlayerFromConversationArea (s : TownState) (player : Player)
    (conversationLabel : String) : TownState :=
  match s.getArea conversationLabel with
  | none => s
  | some conversation =>
      let s1 :=
        if conversation.occupantsByID.contains player.id then
          updArea s conversationLabel (eraseOccupantF player.id)
        else s
      let s2 :=
        match player.activeJoinRequest with
        | some playerJoinRequest =>
            if conversation.joinRequests.any
                (fun joinRequest => joinRequest.id = playerJoinRequest.id) then
              (removeJoinRequest s1 playerJoinRequest).2
            else s1
        | none => s1
      let s3 :=
        if player.permissions = PlayerPermissions.Admin then
          let sa := updPlayer s2 player.id demoteF
          let sb := emitEvent sa (TownEvent.playerPermissionUpdated player.id)
          let sc := updArea sb conversationLabel setPublicF
          let pending := ((sc.getArea conversationLabel).map
            (fun c => c.joinRequests)).getD []
          acceptAllJoinRequests sc pending
        else s2
      destroyOrUpdateArea s3 conversationLabel

/-- updatePlayerLocation from CoveyTownController.ts, applied to the player
with the given id (the source receives the live player object of the
session). Follows the source statement for statement; the early return of
the DoNotDisturb branch skips every event emission. -/
def updatePlayerLocation (s : TownState) (playerId : String)
    (location : UserLocation) : TownState :=
  match s.getPlayer playerId with
  | none => s
  | some _ =>
      let s1 := updPlayer s playerId (fun p => { p with location := location })
      let conversation := s1.conversationAreas.find?
        (fun conv => some conv.label = location.conversationLabel)
      if conversation.map (fun c => c.status) =
          some ConversationAreaStatus.DoNotDisturb then
        updPlayer s1 playerId (fun p => { p with location :=
          { location with conversationLabel := jsLabelOr location.conversationLabel } })
      else
        let prevConversation := ((s1.getPlayer playerId).map
          (fun p => p.activeConversationArea)).getD none
        let s2 :=
          if conversation = none ∨
              conversation.map (fun c => c.status) = some ConversationAreaStatus.Public then
            updPlayer s1 playerId (fun p => { p with
              location := location,
              activeConversationArea := conversation.map (fun c => c.label) })
          else s1
        let s3 :=
          if (conversation.map (fun c => c.label) : Option String) ≠ prevConversation then
            let sa :=
              match prevConversation with
              | some prevLabel =>
                  match s2.getPlayer playerId with
                  | some playerRecord =>
                      removePlayerFromConversationArea s2 playerRecord prevLabel
                  | none => s2
              | none => s2
            match conversation with
            | some c =>
                let sb :=
                  if c.status = ConversationAreaStatus.Public then
                    let sb1 := updPlayer sa playerId
                      (fun p => { p with location := location })
                    updArea sb1 c.label
                      (fun conv => { conv with
                        occupantsByID := conv.occupantsByID ++ [playerId] })
                  else
                    updPlayer sa playerId (fun p => { p with location :=
                      { location with
                        conversationLabel := jsLabelOr location.conversationLabel } })
                emitEvent sb (TownEvent.conversationAreaUpdated c.label)
            | none => sa
          else s2
        let s4 :=
          match (s3.getPlayer playerId).bind (fun p => p.activeJoinRequest) with
          | some activeJoinRequest =>
              if some activeJoinRequest.conversationLabel ≠
                  conversation.map (fun c => c.label) then
                (removeJoinRequest s3 activeJoinRequest).2
              else s3
          | none => s3
        emitEvent s4 (TownEvent.playerMoved playerId)

/-- destroySession from CoveyTownController.ts: filters the player and the
session out of their lists, emits the disconnect event, and, when the
player held an active conversation membership, runs the remove-from-area
protocol for it using the player record captured before the removal (the
source keeps reading the live player object of the session). -/
def destroySession (s : TownState) (session : PlayerSession) : TownState :=
  let playerRecord := s.getPlayer session.playerId
  let s1 := { s with
    players := s.players.filter (fun p => p.id ≠ session.playerId),
    sessions := s.sessions.filter (fun t => t.sessionToken ≠ session.sessionToken) }
  let s2 := emitEvent s1 (TownEvent.playerDisconnected session.playerId)
  match playerRecord with
  | some player =>
      match player.activeConversationArea with
      | some conversation => removePlayerFromConversationArea s2 player conversation
      | none => s2
  | none => s2

/-- addConversationArea from CoveyTownController.ts: rejects a duplicate
label, an empty-string topic, a truthy nonpositive maxOccupants (JS
truthiness lets a maxOccupants of 0 pass this guard), and a bounding box
overlapping an existing area; on success pushes the area, sets the
occupants to exactly the players within the box together with their
membership back-references, promotes the creating player to Admin when the
requested status is AvailableToRequest, and emits the update event. -/
def addConversationArea (s : TownState) (conversationArea : ServerConversationArea)
    (playerId : String) : Bool × TownState :=
  if s.conversationAreas.any
      (fun eachExistingConversation =>
        eachExistingConversation.label = conversationArea.label) then
    (false, s)
  else if conversationArea.topic = some "" then
    (false, s)
  else if (conversationArea.maxOccupants.map
      (fun m => decide (m ≠ 0) && decide (m ≤ 0))).getD false then
    (false, s)
  else if s.conversationAreas.any
      (fun eachExistingConversation =>
        boxesOverlap eachExistingConversation.boundingBox
          conversationArea.boundingBox) then
    (false, s)
  else
    let s1 := { s with
      conversationAreas := s.conversationAreas ++ [conversationArea] }
    let playersInThisConversation := s.players.filter
      (fun p => p.isWithin conversationArea)
    let s2 := { s1 with
      players := s1.players.map (fun p =>
        if p.isWithin conversationArea then
          { p with activeConversationArea := some conversationArea.label }
        else p) }
    let s3 := updArea s2 conversationArea.label
      (fun c => { c with
        occupantsByID := playersInThisConversation.map (fun p => p.id) })
    let s4 :=
      if conversationArea.status = ConversationAreaStatus.AvailableToRequest then
        let sa := updPlayer s3 playerId
          (fun p => { p with permissions := PlayerPermissions.Admin })
        emitEvent sa (TownEvent.playerPermissionUpdated playerId)
      else s3
    let s5 := emitEvent s4 (TownEvent.conversationAreaUpdated conversationArea.label)
    (true, s5)

/-- updateConversationArea from CoveyTownController.ts: requires the acting
player to be an occupant of the named area with an Admin permission, and
the new maxOccupants, when supplied, to be at least the occupant count; on
success applies the status when supplied, overwrites maxOccupants with the
argument unconditionally (an omitted argument clears a previous limit),
denies every pending request when the area became DoNotDisturb or reached
its capacity while AvailableToRequest, demotes the admin when the area
became Public, and emits the update event. -/
def updateConversationArea (s : TownState) (conversationLabel : String)
    (playerId : String) (status : Option ConversationAreaStatus)
    (maxOccupants : Option Int) : Bool × TownState :=
  match s.getArea conversationLabel, s.getPlayer playerId with
  | some conversationArea, some player =>
      if player.activeConversationArea ≠ some conversationLabel ∨
          ¬ conversationArea.occupantsByID.contains playerId then
        (false, s)
      else if player.permissions ≠ PlayerPermissions.Admin then
        (false, s)
      else if (maxOccupants.map
          (fun m => decide (m < (conversationArea.occupantsByID.length : Int)))).getD
          false then
        (false, s)
      else
        let s1 :=
          match status with
          | some st => updArea s conversationLabel (fun c => { c with status := st })
          | none => s
        let s2 := updArea s1 conversationLabel
          (fun c => { c with maxOccupants := maxOccupants })
        let s3 :=
          match s2.getArea conversationLabel with
          | some ca =>
              if ca.status = ConversationAreaStatus.DoNotDisturb ∨
                  (ca.status = ConversationAreaStatus.AvailableToRequest ∧
                    ca.maxOccupants = some (ca.occupantsByID.length : Int)) then
                removeAllJoinRequests s2 ca.joinRequests
              else s2
          | none => s2
        let s4 :=
          match s3.getArea conversationLabel with
          | some ca =>
              if ca.status = ConversationAreaStatus.Public then
                let sa := updPlayer s3 playerId
                  (fun p => { p with permissions := PlayerPermissions.Normal })
                emitEvent sa (TownEvent.playerPermissionUpdated playerId)
              else s3
          | none => s3
        let s5 := emitEvent s4 (TownEvent.conversationAreaUpdated conversationLabel)
        (true, s5)
  | _, _ => (false, s)

/-- The outcome of getJoinRequests: a refused query is the undefined result
of the source; a failed lookup of a requesting player is the thrown
assertion inside the map. -/
inductive JoinRequestListResult where
  | refused
  | assertionFailed
  | ok (list : List JoinRequestListEntry)
deriving DecidableEq, Repr

/-- getJoinRequests from CoveyTownController.ts, for the acting player with
the given id: refuses unless that player occupies the named area and holds
Admin, then maps every pending request to an entry enriched with the
requester name, asserting that the requesting player exists. -/
def getJoinRequests (s : TownState) (conversationAreaLabel : String)
    (playerId : String) : JoinRequestListResult :=
  match s.getArea conversationAreaLabel, s.getPlayer playerId with
  | some conversationArea, some player =>
      if player.activeConversationArea ≠ some conversationAreaLabel ∨
          ¬ conversationArea.occupantsByID.contains playerId then
        JoinRequestListResult.refused
      else if player.permissions ≠ PlayerPermissions.Admin then
        JoinRequestListResult.refused
      else
        match conversationArea.joinRequests.mapM (fun joinRequest =>
          (s.getPlayer joinRequest.playerId).map (fun reqPlayer =>
            { id := joinRequest.id
              playerId := joinRequest.playerId
              userName := reqPlayer.userName
              conversationLabel := conversationArea.label
              conversationTopic := conversationArea.topic :
                JoinRequestListEntry })) with
        | some list => JoinRequestListResult.ok list
        | none => JoinRequestListResult.assertionFailed
  | _, _ => JoinRequestListResult.refused

/-- updateJoinRequest from CoveyTownController.ts, for the acting player
with the given id: a non-admin passes the gate only when denying a request
carrying their own player id; an admin passes only when their active
conversation area exists and lists a request with the same id. When the
gate passes the accept or deny runs and the call reports true regardless
of the inner outcome. -/
def updateJoinRequest (s : TownState) (playerId : String) (decision : Bool)
    (joinRequest : JoinRequest) : Bool × TownState :=
  match s.getPlayer playerId with
  | none => (false, s)
  | some player =>
      if player.permissions ≠ PlayerPermissions.Admin ∧
          (decision = true ∨ playerId ≠ joinRequest.playerId) then
        (false, s)
      else
        let conversationArea := player.activeConversationArea.bind
          (fun lab => s.getArea lab)
        if player.permissions = PlayerPermissions.Admin ∧
            ¬ (conversationArea.map (fun ca => ca.joinRequests.any
              (fun caJoinRequest => caJoinRequest.id = joinRequest.id))).getD false then
          (false, s)
        else if decision then
          (true, (acceptJoinRequest s joinRequest).2)
        else
          (true, (removeJoinRequest s joinRequest).2)

/-- createJoinRequest from CoveyTownController.ts, for the acting player
with the given id and an explicitly supplied fresh request id (nanoid in
the source): requires an AvailableToRequest area, a player without
membership or pending request standing within the box; creates the request
on both sides, then auto-denies it at once when the area already sits at
its capacity, emitting the update events of both steps. -/
def createJoinRequest (s : TownState) (conversationAreaLabel : String)
    (playerId : String) (freshId : String) : Bool × TownState :=
  match s.getArea conversationAreaLabel, s.getPlayer playerId with
  | some conversationArea, some player =>
      if conversationArea.status ≠ ConversationAreaStatus.AvailableToRequest then
        (false, s)
      else if player.activeConversationArea ≠ none ∨
          player.activeJoinRequest ≠ none ∨
          ¬ player.isWithin conversationArea then
        (false, s)
      else
        let newJoinRequest : JoinRequest :=
          { id := freshId
            playerId := playerId
            conversationLabel := conversationArea.label }
        let s1 := updArea s conversationArea.label
          (fun c => { c with joinRequests := c.joinRequests ++ [newJoinRequest] })
        let s2 := updPlayer s1 playerId
          (fun p => { p with activeJoinRequest := some newJoinRequest })
        let s3 := emitEvent s2
          (TownEvent.conversationAreaUpdated conversationArea.label)
        let s4 :=
          if (conversationArea.maxOccupants.map (fun m => decide (m ≠ 0) &&
              decide (m = (conversationArea.occupantsByID.length : Int)))).getD
              false then
            (removeJoinRequest s3 newJoinRequest).2
          else s3
        let s5 := emitEvent s4
          (TownEvent.conversationAreaUpdated conversationArea.label)
        (true, s5)
  | _, _ => (false, s)

/-- addPlayer from CoveyTownController.ts: constructs the session, pushes
the session and the player onto their lists, then awaits the video
credential (passed here as an explicit outcome). A rejected credential
call rejects the whole call at that point: the pushes already performed
remain in the state and no event is emitted. On success the video token is
stored on the session, the joined event is emitted and the session is
returned. -/
def addPlayer (s : TownState) (newPlayer : Player) (sessionToken : String)
    (videoResult : Except String String) :
    Except String PlayerSession × TownState :=
  let theSession : PlayerSession :=
    { playerId := newPlayer.id, sessionToken := sessionToken, videoToken := none }
  let s1 := { s with
    sessions := s.sessions ++ [theSession],
    players := s.players ++ [newPlayer] }
  match videoResult with
  | Except.error e => (Except.error e, s1)
  | Except.ok videoToken =>
      let s2 := { s1 with
        sessions := updateFirstSession s1.sessions sessionToken
          (fun t => { t with videoToken := some videoToken }) }
      let s3 := emitEvent s2 (TownEvent.playerJoined newPlayer.id)
      (Except.ok { theSession with videoToken := some videoToken }, s3)

/-- Modelled from the spec: the server Player constructor (types/Player is
not under src) creates a player with a fresh id, the given display name,
the spawn location at the origin, Normal permission and no back-references
(the spec gives joining players no membership and no pending request). -/
def mkNewPlayer (id userName : String) : Player :=
  { id := id
    userName := userName
    location :=
      { x := 0, y := 0, rotation := Direction.front, moving := false,
        conversationLabel := none }
    permissions := PlayerPermissions.Normal
    activeConversationArea := none
    activeJoinRequest := none }

/-- One inbound command handled by the town controller, as wired up by the
request handlers: joining (with either credential outcome), disconnecting,
moving, creating or updating a conversation area, and creating or
resolving a join request. The payloads are client-supplied and therefore
arbitrary. -/
inductive Step : TownState → TownState → Prop
  | join (s : TownState) (id userName sessionToken : String)
      (videoResult : Except String String) :
      Step s (addPlayer s (mkNewPlayer id userName) sessionToken videoResult).2
  | leave (s : TownState) (session : PlayerSession) :
      Step s (destroySession s session)
  | move (s : TownState) (playerId : String) (location : UserLocation) :
      Step s (updatePlayerLocation s playerId location)
  | createArea (s : TownState) (conversationArea : ServerConversationArea)
      (playerId : String) :
      Step s (addConversationArea s conversationArea playerId).2
  | updateArea (s : TownState) (conversationLabel playerId : String)
      (status : Option ConversationAreaStatus) (maxOccupants : Option Int) :
      Step s (updateConversationArea s conversationLabel playerId status maxOccupants).2
  | createRequest (s : TownState) (conversationAreaLabel playerId freshId : String) :
      Step s (createJoinRequest s conversationAreaLabel playerId freshId).2
  | resolveRequest (s : TownState) (playerId : String) (decision : Bool)
      (joinRequest : JoinRequest) :
      Step s (updateJoinRequest s playerId decision joinRequest).2

/-- A controller state reachable from the state of a freshly constructed
controller through inbound commands. -/
def Reachable (s : TownState) : Prop :=
  Relation.ReflTransGen Step initialTown s

/-! Concrete fixtures: small states and traces used to evaluate the
operations at explicit inputs. Every trace below starts from the initial
state and applies inbound commands only, so each intermediate state is
reachable. -/

/-- A location helper for concrete inputs. -/
def locAt (x y : ℚ) (lab : Option String) : UserLocation :=
  { x := x, y := y, rotation := Direction.front, moving := false,
    conversationLabel := lab }

/-- A 10 by 10 box centred at the origin. -/
def boxA : BoundingBox := { x := 0, y := 0, width := 10, height := 10 }

def pl1 : Player := mkNewPlayer "p1" "alice"

def pl2 : Player := mkNewPlayer "p2" "bob"

/-- A town where p1 and p2 joined (both credential calls succeeded). -/
def twoPlayerTown : TownState :=
  (addPlayer (addPlayer initialTown pl1 "t1" (Except.ok "v1")).2
    pl2 "t2" (Except.ok "v2")).2

/-- A proposed conversation area with capacity 1 whose box contains the
spawn position of both joined players. -/
def capOneArea : ServerConversationArea :=
  { label := "A", topic := some "chat", occupantsByID := [], boundingBox := boxA,
    status := ConversationAreaStatus.Public, maxOccupants := some 1,
    joinRequests := [] }

/-- A proposed conversation area with a maxOccupants of 0. -/
def capZeroArea : ServerConversationArea :=
  { label := "Z", topic := some "tp", occupantsByID := [], boundingBox := boxA,
    status := ConversationAreaStatus.Public, maxOccupants := some 0,
    joinRequests := [] }

/-- A proposed gated conversation area at the origin with no capacity. -/
def gatedArea : ServerConversationArea :=
  { label := "A", topic := some "t", occupantsByID := [], boundingBox := boxA,
    status := ConversationAreaStatus.AvailableToRequest, maxOccupants := none,
    joinRequests := [] }

/-- Trace: p2 steps away from the origin, p1 creates the gated area (and
becomes its admin), p2 walks back inside and files a join request. -/
def requestPendingTown : TownState :=
  (createJoinRequest
    (updatePlayerLocation
      (addConversationArea
        (updatePlayerLocation twoPlayerTown "p2" (locAt 20 20 none))
        gatedArea "p1").2
      "p2" (locAt 1 1 none))
    "A" "p2" "r1").2

/-- The session record of p2 inside requestPendingTown. -/
def sess2 : PlayerSession :=
  { playerId := "p2", sessionToken := "t2", videoToken := some "v2" }

/-- Trace: p2 disconnects while the join request r1 is still pending and p2
holds no conversation membership; destroySession leaves r1 behind. -/
def orphanTown : TownState := destroySession requestPendingTown sess2

/-- The join request of p2 on area A. -/
def reqR1 : JoinRequest := { id := "r1", playerId := "p2", conversationLabel := "A" }

/-- The record of p1 inside orphanTown: the admin of area A. -/
def p1AtRemove : Player :=
  { id := "p1", userName := "alice", location := locAt 0 0 none,
    permissions := PlayerPermissions.Admin, activeConversationArea := some "A",
    activeJoinRequest := none }

/-- A DoNotDisturb area away from the origin. -/
def dndArea : ServerConversationArea :=
  { label := "D", topic := some "quiet", occupantsByID := ["q"],
    boundingBox := { x := 50, y := 50, width := 10, height := 10 },
    status := ConversationAreaStatus.DoNotDisturb, maxOccupants := none,
    joinRequests := [] }

/-- A player with no conversation label on their stored location. -/
def pd : Player :=
  { id := "pd", userName := "dana", location := locAt 0 0 none,
    permissions := PlayerPermissions.Normal, activeConversationArea := none,
    activeJoinRequest := none }

/-- A town with one player and one DoNotDisturb area. -/
def dndTown : TownState :=
  { players := [pd], sessions := [], conversationAreas := [dndArea], events := [] }

/-- A gated area with an empty pending list. -/
def areaE : ServerConversationArea :=
  { label := "E", topic := some "te", occupantsByID := [],
    boundingBox := { x := 30, y := 30, width := 4, height := 4 },
    status := ConversationAreaStatus.AvailableToRequest, maxOccupants := none,
    joinRequests := [] }

/-- A town holding player pd and area E with no pending join request at
all: any join request on E was denied before this state. -/
def noPendingTown : TownState :=
  { players := [pd], sessions := [], conversationAreas := [areaE], events := [] }

/-- An area administered by player pm with capacity 5. -/
def areaM : ServerConversationArea :=
  { label := "M", topic := some "tm", occupantsByID := ["pm"],
    boundingBox := { x := 30, y := 30, width := 4, height := 4 },
    status := ConversationAreaStatus.AvailableToRequest, maxOccupants := some 5,
    joinRequests := [] }

/-- The admin occupant of area M. -/
def pm : Player :=
  { id := "pm", userName := "mia", location := locAt 30 30 (some "M"),
    permissions := PlayerPermissions.Admin, activeConversationArea := some "M",
    activeJoinRequest := none }

/-- A town with the admin pm occupying area M. -/
def adminTown : TownState :=
  { players := [pm], sessions := [], conversationAreas := [areaM], events := [] }

/-- A proposed conversation area used to exhibit a reachable state with one
active area. -/
def witnessArea : ServerConversationArea :=
  { label := "W", topic := some "tw", occupantsByID := [], boundingBox := boxA,
    status := ConversationAreaStatus.Public, maxOccupants := none,
    joinRequests := [] }

/-- The projection of a conversation area that the deny operations leave
untouched: occupants, status and capacity. -/
def areaShape (c : ServerConversationArea) :
    List String × ConversationAreaStatus × Option Int :=
  (c.occupantsByID, c.status, c.maxOccupants)

/-- The projection of a player that the join-request bookkeeping leaves
untouched: permission and membership back-reference. -/
def playerView (p : Player) : PlayerPermissions × Option String :=
  (p.permissions, p.activeConversationArea)

/-- The bounding boxes of the active conversation areas of a state. -/
def boxes (s : TownState) : List BoundingBox :=
  s.conversationAreas.map (fun a => a.boundingBox)

/-- The spatial invariant: the boxes of distinct active areas never overlap
under the strict separating-axis predicate of the source. -/
def areasDisjoint (s : TownState) : Prop :=
  List.Pairwise (fun a b => boxesOverlap a.boundingBox b.boundingBox = false)
    s.conversationAreas

/-- A proposed conversation area with a negative capacity. -/
def negCapArea : ServerConversationArea :=
  { label := "N", topic := some "tn", occupantsByID := [], boundingBox := boxA,
    status := ConversationAreaStatus.Public, maxOccupants := some (-1),
    joinRequests := [] }

/-- A pending join request of player pb on area G. -/
def c6wReq : JoinRequest :=
  { id := "r9", playerId := "pb", conversationLabel := "G" }

/-- The admin occupant of area G. -/
def c6wAdmin : Player :=
  { id := "pa", userName := "ann", location := locAt 0 0 (some "G"),
    permissions := PlayerPermissions.Admin, activeConversationArea := some "G",
    activeJoinRequest := none }

/-- The requesting player of the pending request on area G. -/
def c6wRequester : Player :=
  { id := "pb", userName := "ben", location := locAt 1 1 none,
    permissions := PlayerPermissions.Normal, activeConversationArea := none,
    activeJoinRequest := some c6wReq }

/-- A gated area with one occupant (the admin) and one pending request. -/
def c6wArea : ServerConversationArea :=
  { label := "G", topic := some "g", occupantsByID := ["pa"], boundingBox := boxA,
    status := ConversationAreaStatus.AvailableToRequest, maxOccupants := none,
    joinRequests := [c6wReq] }

/-- A town where the admin pa occupies area G and pb has a pending request. -/
def c6wTown : TownState :=
  { players := [c6wAdmin, c6wRequester], sessions := [],
    conversationAreas := [c6wArea], events := [] }

/-! Named forms of the record updates performed by the operations, used by
the characterization lemmas below (each is definitionally the lambda
written inside the corresponding operation). -/

/-- Drop the request with the given id from the pending list of an area. -/
def filterRequestF (rid : String) (c : ServerConversationArea) : ServerConversationArea :=
  { c with joinRequests := c.joinRequests.filter fun request => request.id ≠ rid }

/-- Clear the pending-request back-reference of a player. -/
def clearRequestF (p : Player) : Player :=
  { p with activeJoinRequest := none }

/-- Append a player id to the occupant list of an area. -/
def pushOccupantF (pid : String) (c : ServerConversationArea) : ServerConversationArea :=
  { c with occupantsByID := c.occupantsByID ++ [pid] }

/-- Set the membership back-reference of a player to the given label. -/
def setMembershipF (lab : String) (p : Player) : Player :=
  { p with activeConversationArea := some lab }

/-- Overwrite the conversation label of the stored location of a player. -/
def setLocationLabelF (lab : String) (p : Player) : Player :=
  { p with location := { p.location with conversationLabel := some lab } }

/-! Primitive lemmas about the state helpers. -/

@[simp] theorem getArea_updPlayer (s : TownState) (pid : String) (f : Player → Player)
    (lab : String) : (updPlayer s pid f).getArea lab = s.getArea lab := rfl

@[simp] theorem getArea_emitEvent (s : TownState) (e : TownEvent) (lab : String) :
    (emitEvent s e).getArea lab = s.getArea lab := rfl

@[simp] theorem getPlayer_updArea (s : TownState) (lab : String)
    (f : ServerConversationArea → ServerConversationArea) (pid : String) :
    (updArea s lab f).getPlayer pid = s.getPlayer pid := rfl

@[simp] theorem getPlayer_emitEvent (s : TownState) (e : TownEvent) (pid : String) :
    (emitEvent s e).getPlayer pid = s.getPlayer pid := rfl

@[simp] theorem events_updPlayer (s : TownState) (pid : String) (f : Player → Player) :
    (updPlayer s pid f).events = s.events := rfl

@[simp] theorem events_updArea (s : TownState) (lab : String)
    (f : ServerConversationArea → ServerConversationArea) :
    (updArea s lab f).events = s.events := rfl

@[simp] theorem events_emitEvent (s : TownState) (e : TownEvent) :
    (emitEvent s e).events = s.events ++ [e] := rfl

@[simp] theorem boxes_updPlayer (s : TownState) (pid : String) (f : Player → Player) :
    boxes (updPlayer s pid f) = boxes s := rfl

@[simp] theorem boxes_emitEvent (s : TownState) (e : TownEvent) :
    boxes (emitEvent s e) = boxes s := rfl

theorem map_updateFirstArea {β : Type} (g : ServerConversationArea → β)
    (f : ServerConversationArea → ServerConversationArea)
    (hg : ∀ a, g (f a) = g a) :
    ∀ (l : List ServerConversationArea) (lab : String),
      (updateFirstArea l lab f).map g = l.map g
  | [], _ => rfl
  | a :: rest, lab => by
      by_cases h : a.label = lab
      · simp [updateFirstArea, h, hg]
      · simp [updateFirstArea, h, map_updateFirstArea g f hg rest lab]

theorem map_updateFirstPlayer {β : Type} (g : Player → β) (f : Player → Player)
    (hg : ∀ p, g (f p) = g p) :
    ∀ (l : List Player) (pid : String),
      (updateFirstPlayer l pid f).map g = l.map g
  | [], _ => rfl
  | p :: rest, pid => by
      by_cases h : p.id = pid
      · simp [updateFirstPlayer, h, hg]
      · simp [updateFirstPlayer, h, map_updateFirstPlayer g f hg rest pid]

theorem find_updateFirstArea_self (f : ServerConversationArea → ServerConversationArea)
    (hf : ∀ a, (f a).label = a.label) :
    ∀ (l : List ServerConversationArea) (lab : String),
      (updateFirstArea l lab f).find? (fun c => c.label = lab) =
        (l.find? (fun c => c.label = lab)).map f
  | [], _ => rfl
  | a :: rest, lab => by
      by_cases h : a.label = lab
      · simp [updateFirstArea, h, List.find?, hf]
      · simp [updateFirstArea, h, List.find?, find_updateFirstArea_self f hf rest lab]

theorem find_updateFirstArea_ne (f : ServerConversationArea → ServerConversationArea)
    (hf : ∀ a, (f a).label = a.label) :
    ∀ (l : List ServerConversationArea) (lab lab2 : String), lab2 ≠ lab →
      (updateFirstArea l lab f).find? (fun c => c.label = lab2) =
        l.find? (fun c => c.label = lab2)
  | [], _, _, _ => rfl
  | a :: rest, lab, lab2, hne => by
      by_cases h : a.label = lab
      · have h2 : lab ≠ lab2 := fun hx => hne hx.symm
        simp [updateFirstArea, h, List.find?, hf, h2]
      · simp [updateFirstArea, h, List.find?,
          find_updateFirstArea_ne f hf rest lab lab2 hne]

theorem find_updateFirstPlayer_self (f : Player → Player)
    (hf : ∀ p, (f p).id = p.id) :
    ∀ (l : List Player) (pid : String),
      (updateFirstPlayer l pid f).find? (fun p => p.id = pid) =
        (l.find? (fun p => p.id = pid)).map f
  | [], _ => rfl
  | p :: rest, pid => by
      by_cases h : p.id = pid
      · simp [updateFirstPlayer, h, List.find?, hf]
      · simp [updateFirstPlayer, h, List.find?, find_updateFirstPlayer_self f hf rest pid]

theorem find_updateFirstPlayer_ne (f : Player → Player)
    (hf : ∀ p, (f p).id = p.id) :
    ∀ (l : List Player) (pid pid2 : String), pid2 ≠ pid →
      (updateFirstPlayer l pid f).find? (fun p => p.id = pid2) =
        l.find? (fun p => p.id = pid2)
  | [], _, _, _ => rfl
  | p :: rest, pid, pid2, hne => by
      by_cases h : p.id = pid
      · have h2 : pid ≠ pid2 := fun hx => hne hx.symm
        simp [updateFirstPlayer, h, List.find?, hf, h2]
      · simp [updateFirstPlayer, h, List.find?,
          find_updateFirstPlayer_ne f hf rest pid pid2 hne]

theorem getArea_updArea_self (s : TownState) (lab : String)
    (f : ServerConversationArea → ServerConversationArea)
    (hf : ∀ a, (f a).label = a.label) :
    (updArea s lab f).getArea lab = (s.getArea lab).map f :=
  find_updateFirstArea_self f hf s.conversationAreas lab

theorem getArea_updArea_ne (s : TownState) (lab lab2 : String)
    (f : ServerConversationArea → ServerConversationArea)
    (hf : ∀ a, (f a).label = a.label) (h : lab2 ≠ lab) :
    (updArea s lab f).getArea lab2 = s.getArea lab2 :=
  find_updateFirstArea_ne f hf s.conversationAreas lab lab2 h

theorem getPlayer_updPlayer_self (s : TownState) (pid : String) (f : Player → Player)
    (hf : ∀ p, (f p).id = p.id) :
    (updPlayer s pid f).getPlayer pid = (s.getPlayer pid).map f :=
  find_updateFirstPlayer_self f hf s.players pid

theorem getPlayer_updPlayer_ne (s : TownState) (pid pid2 : String) (f : Player → Player)
    (hf : ∀ p, (f p).id = p.id) (h : pid2 ≠ pid) :
    (updPlayer s pid f).getPlayer pid2 = s.getPlayer pid2 :=
  find_updateFirstPlayer_ne f hf s.players pid pid2 h

theorem eraseFirstArea_sublist :
    ∀ (l : List ServerConversationArea) (lab : String),
      List.Sublist (eraseFirstArea l lab) l
  | [], _ => List.Sublist.refl _
  | a :: rest, lab => by
      by_cases h : a.label = lab
      · simp only [eraseFirstArea, if_pos h]
        exact List.sublist_cons_self a rest
      · simp only [eraseFirstArea, if_neg h]
        exact List.Sublist.cons₂ a (eraseFirstArea_sublist rest lab)

theorem getArea_label {s : TownState} {lab : String} {c : ServerConversationArea}
    (h : s.getArea lab = some c) : c.label = lab := by
  have hp := List.find?_some h
  simpa using hp

theorem getPlayer_id {s : TownState} {pid : String} {p : Player}
    (h : s.getPlayer pid = some p) : p.id = pid := by
  have hp := List.find?_some h
  simpa using hp

/-! Lemmas about removeJoinRequest and the deny-all fold. -/

theorem removeJoinRequest_eq (s : TownState) (jq : JoinRequest)
    (conv : ServerConversationArea) (player : Player)
    (hA : s.getArea jq.conversationLabel = some conv)
    (hP : s.getPlayer jq.playerId = some player) :
    removeJoinRequest s jq =
      (true, emitEvent (emitEvent
        (updPlayer (updArea s conv.label (filterRequestF jq.id))
          player.id clearRequestF)
        (TownEvent.playerMoved player.id))
        (TownEvent.conversationAreaUpdated conv.label)) := by
  simp only [removeJoinRequest, hA, hP]
  rfl

theorem removeJoinRequest_none (s : TownState) (jq : JoinRequest)
    (h : s.getArea jq.conversationLabel = none ∨ s.getPlayer jq.playerId = none) :
    removeJoinRequest s jq = (false, s) := by
  rcases h with h | h
  · simp only [removeJoinRequest, h]
  · cases hA : s.getArea jq.conversationLabel <;> simp only [removeJoinRequest, hA, h]

theorem removeJoinRequest_getArea_proj {β : Type} (g : ServerConversationArea → β)
    (hg : ∀ c jr, g { c with joinRequests := jr } = g c)
    (s : TownState) (jq : JoinRequest) (lab : String) :
    (((removeJoinRequest s jq).2).getArea lab).map g = (s.getArea lab).map g := by
  cases hA : s.getArea jq.conversationLabel with
  | none => rw [removeJoinRequest_none s jq (Or.inl hA)]
  | some conv =>
      cases hP : s.getPlayer jq.playerId with
      | none => rw [removeJoinRequest_none s jq (Or.inr hP)]
      | some player =>
          rw [removeJoinRequest_eq s jq conv player hA hP]
          simp only [getArea_emitEvent, getArea_updPlayer]
          by_cases h : lab = conv.label
          · subst h
            rw [getArea_updArea_self s conv.label (filterRequestF jq.id) (fun a => rfl)]
            cases s.getArea conv.label <;> simp [hg, filterRequestF]
          · rw [getArea_updArea_ne s conv.label lab (filterRequestF jq.id)
              (fun a => rfl) h]

theorem removeJoinRequest_getPlayer_proj {β : Type} (g : Player → β)
    (hg : ∀ p, g { p with activeJoinRequest := none } = g p)
    (s : TownState) (jq : JoinRequest) (pid : String) :
    (((removeJoinRequest s jq).2).getPlayer pid).map g = (s.getPlayer pid).map g := by
  cases hA : s.getArea jq.conversationLabel with
  | none => rw [removeJoinRequest_none s jq (Or.inl hA)]
  | some conv =>
      cases hP : s.getPlayer jq.playerId with
      | none => rw [removeJoinRequest_none s jq (Or.inr hP)]
      | some player =>
          rw [removeJoinRequest_eq s jq conv player hA hP]
          simp only [getPlayer_emitEvent]
          by_cases h : pid = player.id
          · subst h
            rw [getPlayer_updPlayer_self _ player.id clearRequestF (fun p => rfl)]
            simp only [getPlayer_updArea]
            cases s.getPlayer player.id <;> simp [hg, clearRequestF]
          · rw [getPlayer_updPlayer_ne _ player.id pid clearRequestF (fun p => rfl) h]
            simp only [getPlayer_updArea]

theorem removeJoinRequest_events_mono (s : TownState) (jq : JoinRequest) :
    s.events ⊆ ((removeJoinRequest s jq).2).events := by
  cases hA : s.getArea jq.conversationLabel with
  | none =>
      rw [removeJoinRequest_none s jq (Or.inl hA)]
      exact fun _ hx => hx
  | some conv =>
      cases hP : s.getPlayer jq.playerId with
      | none =>
          rw [removeJoinRequest_none s jq (Or.inr hP)]
          exact fun _ hx => hx
      | some player =>
          rw [removeJoinRequest_eq s jq conv player hA hP]
          simp only [events_emitEvent, events_updPlayer, events_updArea]
          intro x hx
          simp [hx]

theorem boxes_updArea (s : TownState) (lab : String)
    (f : ServerConversationArea → ServerConversationArea)
    (hf : ∀ a, (f a).boundingBox = a.boundingBox) :
    boxes (updArea s lab f) = boxes s :=
  map_updateFirstArea (fun a => a.boundingBox) f hf s.conversationAreas lab

theorem boxes_removeJoinRequest (s : TownState) (jq : JoinRequest) :
    boxes ((removeJoinRequest s jq).2) = boxes s := by
  cases hA : s.getArea jq.conversationLabel with
  | none => rw [removeJoinRequest_none s jq (Or.inl hA)]
  | some conv =>
      cases hP : s.getPlayer jq.playerId with
      | none => rw [removeJoinRequest_none s jq (Or.inr hP)]
      | some player =>
          rw [removeJoinRequest_eq s jq conv player hA hP]
          simp only [boxes_emitEvent, boxes_updPlayer]
          exact boxes_updArea s conv.label (filterRequestF jq.id) (fun a => rfl)

theorem removeAll_nil (s : TownState) : removeAllJoinRequests s [] = s := rfl

theorem removeAll_cons (s : TownState) (jq : JoinRequest) (L : List JoinRequest) :
    removeAllJoinRequests s (jq :: L) =
      removeAllJoinRequests ((removeJoinRequest s jq).2) L := rfl

theorem removeAll_getArea_proj {β : Type} (g : ServerConversationArea → β)
    (hg : ∀ c jr, g { c with joinRequests := jr } = g c) :
    ∀ (L : List JoinRequest) (s : TownState) (lab : String),
      ((removeAllJoinRequests s L).getArea lab).map g = (s.getArea lab).map g
  | [], _, _ => rfl
  | jq :: rest, s, lab => by
      rw [removeAll_cons, removeAll_getArea_proj g hg rest,
        removeJoinRequest_getArea_proj g hg]

theorem removeAll_getPlayer_proj {β : Type} (g : Player → β)
    (hg : ∀ p, g { p with activeJoinRequest := none } = g p) :
    ∀ (L : List JoinRequest) (s : TownState) (pid : String),
      ((removeAllJoinRequests s L).getPlayer pid).map g = (s.getPlayer pid).map g
  | [], _, _ => rfl
  | jq :: rest, s, pid => by
      rw [removeAll_cons, removeAll_getPlayer_proj g hg rest,
        removeJoinRequest_getPlayer_proj g hg]

theorem removeAll_events_mono :
    ∀ (L : List JoinRequest) (s : TownState),
      s.events ⊆ (removeAllJoinRequests s L).events
  | [], _ => fun _ hx => hx
  | jq :: rest, s => by
      rw [removeAll_cons]
      exact fun x hx =>
        removeAll_events_mono rest ((removeJoinRequest s jq).2)
          (removeJoinRequest_events_mono s jq hx)

theorem boxes_removeAll :
    ∀ (L : List JoinRequest) (s : TownState),
      boxes (removeAllJoinRequests s L) = boxes s
  | [], _ => rfl
  | jq :: rest, s => by
      rw [removeAll_cons, boxes_removeAll rest, boxes_removeJoinRequest]

/-! Lemmas about acceptJoinRequest and the accept-all fold. -/

theorem capacityDenyAll_getPlayer_proj {β : Type} (g : Player → β)
    (hg : ∀ p, g { p with activeJoinRequest := none } = g p)
    (s : TownState) (lab : String) (pid : String) :
    ((capacityDenyAll s lab).getPlayer pid).map g = (s.getPlayer pid).map g := by
  unfold capacityDenyAll
  cases s.getArea lab with
  | none => rfl
  | some ca =>
      dsimp only
      split
      · exact removeAll_getPlayer_proj g hg ca.joinRequests s pid
      · rfl

theorem capacityDenyAll_getArea_proj {β : Type} (g : ServerConversationArea → β)
    (hg : ∀ c jr, g { c with joinRequests := jr } = g c)
    (s : TownState) (lab lab2 : String) :
    ((capacityDenyAll s lab).getArea lab2).map g = (s.getArea lab2).map g := by
  unfold capacityDenyAll
  cases s.getArea lab with
  | none => rfl
  | some ca =>
      dsimp only
      split
      · exact removeAll_getArea_proj g hg ca.joinRequests s lab2
      · rfl

theorem capacityDenyAll_events_mono (s : TownState) (lab : String) :
    s.events ⊆ (capacityDenyAll s lab).events := by
  unfold capacityDenyAll
  cases s.getArea lab with
  | none => exact fun _ hx => hx
  | some ca =>
      dsimp only
      split
      · exact removeAll_events_mono ca.joinRequests s
      · exact fun _ hx => hx

theorem boxes_capacityDenyAll (s : TownState) (lab : String) :
    boxes (capacityDenyAll s lab) = boxes s := by
  unfold capacityDenyAll
  cases s.getArea lab with
  | none => rfl
  | some ca =>
      dsimp only
      split
      · exact boxes_removeAll ca.joinRequests s
      · rfl

theorem acceptJoinRequest_eq (s : TownState) (jq : JoinRequest)
    (conv : ServerConversationArea) (player : Player)
    (hA : s.getArea jq.conversationLabel = some conv)
    (hP : s.getPlayer jq.playerId = some player) :
    acceptJoinRequest s jq =
      (true, emitEvent (emitEvent
        (capacityDenyAll
          (updPlayer (updArea
            (updPlayer (updPlayer
              (updArea s conv.label (pushOccupantF player.id))
              player.id (setMembershipF conv.label))
              player.id (setLocationLabelF conv.label))
            conv.label (filterRequestF jq.id))
            player.id clearRequestF)
          conv.label)
        (TownEvent.playerMoved player.id))
        (TownEvent.conversationAreaUpdated conv.label)) := by
  simp only [acceptJoinRequest, hA, hP]
  rfl

theorem acceptJoinRequest_none (s : TownState) (jq : JoinRequest)
    (h : s.getArea jq.conversationLabel = none ∨ s.getPlayer jq.playerId = none) :
    acceptJoinRequest s jq = (false, s) := by
  rcases h with h | h
  · simp only [acceptJoinRequest, h]
  · cases hA : s.getArea jq.conversationLabel <;> simp only [acceptJoinRequest, hA, h]

theorem acceptJoinRequest_getPlayer_perms (s : TownState) (jq : JoinRequest)
    (pid : String) :
    (((acceptJoinRequest s jq).2).getPlayer pid).map (fun p => p.permissions) =
      (s.getPlayer pid).map (fun p => p.permissions) := by
  cases hA : s.getArea jq.conversationLabel with
  | none => rw [acceptJoinRequest_none s jq (Or.inl hA)]
  | some conv =>
      cases hP : s.getPlayer jq.playerId with
      | none => rw [acceptJoinRequest_none s jq (Or.inr hP)]
      | some player =>
          rw [acceptJoinRequest_eq s jq conv player hA hP]
          simp only [getPlayer_emitEvent]
          rw [capacityDenyAll_getPlayer_proj (fun p => p.permissions) (fun p => rfl)]
          by_cases h : pid = player.id
          · subst h
            rw [getPlayer_updPlayer_self _ player.id clearRequestF (fun p => rfl)]
            simp only [getPlayer_updArea]
            rw [getPlayer_updPlayer_self _ player.id (setLocationLabelF conv.label)
              (fun p => rfl)]
            rw [getPlayer_updPlayer_self _ player.id (setMembershipF conv.label)
              (fun p => rfl)]
            simp only [getPlayer_updArea]
            cases s.getPlayer player.id <;>
              simp [clearRequestF, setLocationLabelF, setMembershipF]
          · rw [getPlayer_updPlayer_ne _ player.id pid clearRequestF (fun p => rfl) h]
            simp only [getPlayer_updArea]
            rw [getPlayer_updPlayer_ne _ player.id pid (setLocationLabelF conv.label)
              (fun p => rfl) h]
            rw [getPlayer_updPlayer_ne _ player.id pid (setMembershipF conv.label)
              (fun p => rfl) h]
            simp only [getPlayer_updArea]

theorem acceptJoinRequest_getPlayer_memb (s : TownState) (jq : JoinRequest)
    (pid : String) :
    (((acceptJoinRequest s jq).2).getPlayer pid).map (fun p => p.activeConversationArea) =
        (s.getPlayer pid).map (fun p => p.activeConversationArea) ∨
    (((acceptJoinRequest s jq).2).getPlayer pid).map (fun p => p.activeConversationArea) =
        some (some jq.conversationLabel) := by
  cases hA : s.getArea jq.conversationLabel with
  | none => exact Or.inl (by rw [acceptJoinRequest_none s jq (Or.inl hA)])
  | some conv =>
      cases hP : s.getPlayer jq.playerId with
      | none => exact Or.inl (by rw [acceptJoinRequest_none s jq (Or.inr hP)])
      | some player =>
          have hlab : conv.label = jq.conversationLabel := getArea_label hA
          have hbase :
              (((acceptJoinRequest s jq).2).getPlayer pid).map
                  (fun p => p.activeConversationArea) =
                ((updPlayer (updPlayer
                    (updArea s conv.label (pushOccupantF player.id))
                    player.id (setMembershipF conv.label))
                    player.id (setLocationLabelF conv.label)).getPlayer pid).map
                  (fun p => p.activeConversationArea) := by
            rw [acceptJoinRequest_eq s jq conv player hA hP]
            simp only [getPlayer_emitEvent]
            rw [capacityDenyAll_getPlayer_proj (fun p => p.activeConversationArea)
              (fun p => rfl)]
            by_cases h : pid = player.id
            · subst h
              rw [getPlayer_updPlayer_self _ player.id clearRequestF (fun p => rfl)]
              simp only [getPlayer_updArea]
              cases ((updPlayer (updPlayer (updArea s conv.label
                  (pushOccupantF player.id)) player.id (setMembershipF conv.label))
                  player.id (setLocationLabelF conv.label)).getPlayer player.id) <;>
                simp [clearRequestF]
            · rw [getPlayer_updPlayer_ne _ player.id pid clearRequestF (fun p => rfl) h]
              simp only [getPlayer_updArea]
          by_cases h : pid = player.id
          · right
            rw [hbase]
            subst h
            rw [getPlayer_updPlayer_self _ player.id (setLocationLabelF conv.label)
              (fun p => rfl)]
            rw [getPlayer_updPlayer_self _ player.id (setMembershipF conv.label)
              (fun p => rfl)]
            simp only [getPlayer_updArea]
            rw [getPlayer_id hP, hP]
            simp [setMembershipF, setLocationLabelF, hlab]
          · left
            rw [hbase]
            rw [getPlayer_updPlayer_ne _ player.id pid (setLocationLabelF conv.label)
              (fun p => rfl) h]
            rw [getPlayer_updPlayer_ne _ player.id pid (setMembershipF conv.label)
              (fun p => rfl) h]
            simp only [getPlayer_updArea]

theorem acceptJoinRequest_self_memb (s : TownState) (jq : JoinRequest)
    (conv : ServerConversationArea) (player : Player)
    (hA : s.getArea jq.conversationLabel = some conv)
    (hP : s.getPlayer jq.playerId = some player) :
    (((acceptJoinRequest s jq).2).getPlayer jq.playerId).map
        (fun p => p.activeConversationArea) = some (some jq.conversationLabel) := by
  have hlab : conv.label = jq.conversationLabel := getArea_label hA
  have hpid : player.id = jq.playerId := getPlayer_id hP
  rw [acceptJoinRequest_eq s jq conv player hA hP]
  simp only [getPlayer_emitEvent]
  rw [capacityDenyAll_getPlayer_proj (fun p => p.activeConversationArea) (fun p => rfl)]
  rw [hpid]
  rw [getPlayer_updPlayer_self _ jq.playerId clearRequestF (fun p => rfl)]
  simp only [getPlayer_updArea]
  rw [getPlayer_updPlayer_self _ jq.playerId (setLocationLabelF conv.label)
    (fun p => rfl)]
  rw [getPlayer_updPlayer_self _ jq.playerId (setMembershipF conv.label) (fun p => rfl)]
  simp only [getPlayer_updArea]
  rw [hP]
  simp [clearRequestF, setLocationLabelF, setMembershipF, hlab]

theorem acceptJoinRequest_getArea_shape (s : TownState) (jq : JoinRequest)
    (conv : ServerConversationArea) (player : Player)
    (hA : s.getArea jq.conversationLabel = some conv)
    (hP : s.getPlayer jq.playerId = some player) :
    (((acceptJoinRequest s jq).2).getArea jq.conversationLabel).map areaShape =
      some (conv.occupantsByID ++ [jq.playerId], conv.status, conv.maxOccupants) := by
  have hlab : conv.label = jq.conversationLabel := getArea_label hA
  have hpid : player.id = jq.playerId := getPlayer_id hP
  have hA2 : s.getArea conv.label = some conv := by rw [hlab]; exact hA
  rw [acceptJoinRequest_eq s jq conv player hA hP]
  rw [← hlab, ← hpid]
  simp only [getArea_emitEvent]
  rw [capacityDenyAll_getArea_proj areaShape (fun c jr => rfl)]
  simp only [getArea_updPlayer]
  rw [getArea_updArea_self _ conv.label (filterRequestF jq.id) (fun a => rfl)]
  simp only [getArea_updPlayer]
  rw [getArea_updArea_self s conv.label (pushOccupantF player.id) (fun a => rfl)]
  rw [hA2]
  simp [areaShape, filterRequestF, pushOccupantF]

theorem acceptJoinRequest_events_mono (s : TownState) (jq : JoinRequest) :
    s.events ⊆ ((acceptJoinRequest s jq).2).events := by
  cases hA : s.getArea jq.conversationLabel with
  | none =>
      rw [acceptJoinRequest_none s jq (Or.inl hA)]
      exact fun _ hx => hx
  | some conv =>
      cases hP : s.getPlayer jq.playerId with
      | none =>
          rw [acceptJoinRequest_none s jq (Or.inr hP)]
          exact fun _ hx => hx
      | some player =>
          rw [acceptJoinRequest_eq s jq conv player hA hP]
          intro x hx
          simp only [events_emitEvent, List.mem_append]
          left; left
          exact capacityDenyAll_events_mono _ _ hx

theorem boxes_acceptJoinRequest (s : TownState) (jq : JoinRequest) :
    boxes ((acceptJoinRequest s jq).2) = boxes s := by
  cases hA : s.getArea jq.conversationLabel with
  | none => rw [acceptJoinRequest_none s jq (Or.inl hA)]
  | some conv =>
      cases hP : s.getPlayer jq.playerId with
      | none => rw [acceptJoinRequest_none s jq (Or.inr hP)]
      | some player =>
          rw [acceptJoinRequest_eq s jq conv player hA hP]
          simp only [boxes_emitEvent]
          rw [boxes_capacityDenyAll]
          simp only [boxes_updPlayer]
          rw [boxes_updArea _ conv.label (filterRequestF jq.id) (fun a => rfl)]
          simp only [boxes_updPlayer]
          rw [boxes_updArea s conv.label (pushOccupantF player.id) (fun a => rfl)]

theorem acceptAll_nil (s : TownState) : acceptAllJoinRequests s [] = s := rfl

theorem acceptAll_cons (s : TownState) (jq : JoinRequest) (L : List JoinRequest) :
    acceptAllJoinRequests s (jq :: L) =
      acceptAllJoinRequests ((acceptJoinRequest s jq).2) L := rfl

theorem boxes_acceptAll :
    ∀ (L : List JoinRequest) (s : TownState),
      boxes (acceptAllJoinRequests s L) = boxes s
  | [], _ => rfl
  | jq :: rest, s => by
      rw [acceptAll_cons, boxes_acceptAll rest, boxes_acceptJoinRequest]

theorem acceptAll_events_mono :
    ∀ (L : List JoinRequest) (s : TownState),
      s.events ⊆ (acceptAllJoinRequests s L).events
  | [], _ => fun _ hx => hx
  | jq :: rest, s => by
      rw [acceptAll_cons]
      exact fun x hx =>
        acceptAll_events_mono rest ((acceptJoinRequest s jq).2)
          (acceptJoinRequest_events_mono s jq hx)

/-- The behaviour of the accept-all cascade on an area whose pending
requests all name the area itself and all belong to players still present:
every request is accepted, so every requester ends up in the occupant list
with their membership back-reference set, while the status, the permission
of every player and the earlier events are preserved. -/
theorem acceptAll_spec :
    ∀ (L : List JoinRequest) (s : TownState) (lab : String)
      (conv : ServerConversationArea),
      s.getArea lab = some conv →
      (∀ r ∈ L, r.conversationLabel = lab) →
      (∀ r ∈ L, (s.getPlayer r.playerId).isSome = true) →
      ∃ conv2, (acceptAllJoinRequests s L).getArea lab = some conv2 ∧
        conv2.status = conv.status ∧
        (∃ ext, conv2.occupantsByID = conv.occupantsByID ++ ext) ∧
        (∀ r ∈ L, r.playerId ∈ conv2.occupantsByID) ∧
        (∀ pid, ((acceptAllJoinRequests s L).getPlayer pid).map
          (fun p => p.permissions) = (s.getPlayer pid).map (fun p => p.permissions)) ∧
        (∀ pid, ((acceptAllJoinRequests s L).getPlayer pid).map
            (fun p => p.activeConversationArea) =
            (s.getPlayer pid).map (fun p => p.activeConversationArea) ∨
          ((acceptAllJoinRequests s L).getPlayer pid).map
            (fun p => p.activeConversationArea) = some (some lab)) ∧
        (∀ r ∈ L, ((acceptAllJoinRequests s L).getPlayer r.playerId).map
          (fun p => p.activeConversationArea) = some (some lab)) ∧
        s.events ⊆ (acceptAllJoinRequests s L).events
  | [], s, lab, conv, hA, _, _ =>
      ⟨conv, hA, rfl, ⟨[], by simp⟩, by simp, fun pid => rfl,
        fun pid => Or.inl rfl,
        fun r hr => absurd hr (List.not_mem_nil r), fun _ hx => hx⟩
  | r :: rest, s, lab, conv, hA, hL, hPs => by
      have hrlab : r.conversationLabel = lab := hL r (List.mem_cons_self r rest)
      have hA1 : s.getArea r.conversationLabel = some conv := by rw [hrlab]; exact hA
      have hPsome : (s.getPlayer r.playerId).isSome = true :=
        hPs r (List.mem_cons_self r rest)
      obtain ⟨player, hP⟩ := Option.isSome_iff_exists.mp hPsome
      have hshape := acceptJoinRequest_getArea_shape s r conv player hA1 hP
      rw [hrlab] at hshape
      obtain ⟨conv1, hA1', hshape1⟩ := Option.map_eq_some'.mp hshape
      have hocc1 : conv1.occupantsByID = conv.occupantsByID ++ [r.playerId] :=
        congrArg (fun t => t.1) hshape1
      have hst1 : conv1.status = conv.status := by
        have := congrArg (fun t => t.2.1) hshape1
        simpa [areaShape] using this
      have hrest_lab : ∀ q ∈ rest, q.conversationLabel = lab :=
        fun q hq => hL q (List.mem_cons_of_mem r hq)
      have hsome_step : ∀ pid, ((acceptJoinRequest s r).2.getPlayer pid).isSome =
          (s.getPlayer pid).isSome := by
        intro pid
        have hperm := acceptJoinRequest_getPlayer_perms s r pid
        have := congrArg Option.isSome hperm
        simpa [Option.isSome_map] using this
      have hrest_players : ∀ q ∈ rest,
          ((acceptJoinRequest s r).2.getPlayer q.playerId).isSome = true := by
        intro q hq
        rw [hsome_step]
        exact hPs q (List.mem_cons_of_mem r hq)
      obtain ⟨conv2, hA2, hst2, ⟨ext2, hocc2⟩, hmem2, hperm2, hdisj2, hself2, hev2⟩ :=
        acceptAll_spec rest ((acceptJoinRequest s r).2) lab conv1 hA1' hrest_lab
          hrest_players
      have hstep_self : ((acceptJoinRequest s r).2.getPlayer r.playerId).map
          (fun p => p.activeConversationArea) = some (some lab) := by
        have := acceptJoinRequest_self_memb s r conv player hA1 hP
        rwa [hrlab] at this
      have hstep_disj : ∀ pid,
          ((acceptJoinRequest s r).2.getPlayer pid).map
              (fun p => p.activeConversationArea) =
            (s.getPlayer pid).map (fun p => p.activeConversationArea) ∨
          ((acceptJoinRequest s r).2.getPlayer pid).map
              (fun p => p.activeConversationArea) = some (some lab) := by
        intro pid
        rcases acceptJoinRequest_getPlayer_memb s r pid with h | h
        · exact Or.inl h
        · rw [hrlab] at h
          exact Or.inr h
      refine ⟨conv2, ?_, ?_, ?_, ?_, ?_, ?_, ?_, ?_⟩
      · rw [acceptAll_cons]; exact hA2
      · rw [hst2, hst1]
      · exact ⟨[r.playerId] ++ ext2, by rw [hocc2, hocc1, List.append_assoc]⟩
      · intro q hq
        rcases List.mem_cons.mp hq with hq | hq
        · subst hq
          rw [hocc2, hocc1]
          simp
        · exact hmem2 q hq
      · intro pid
        rw [acceptAll_cons, hperm2 pid, acceptJoinRequest_getPlayer_perms]
      · intro pid
        rw [acceptAll_cons]
        rcases hdisj2 pid with h2 | h2
        · rcases hstep_disj pid with h1 | h1
          · exact Or.inl (h2.trans h1)
          · exact Or.inr (h2.trans h1)
        · exact Or.inr h2
      · intro q hq
        rcases List.mem_cons.mp hq with hq | hq
        · subst hq
          rw [acceptAll_cons]
          rcases hdisj2 q.playerId with h2 | h2
          · exact h2.trans hstep_self
          · exact h2
        · exact hself2 q hq
      · rw [acceptAll_cons]
        exact fun x hx => hev2 (acceptJoinRequest_events_mono s r hx)

theorem destroyOrUpdate_getPlayer (s : TownState) (lab pid : String) :
    (destroyOrUpdateArea s lab).getPlayer pid = s.getPlayer pid := by
  unfold destroyOrUpdateArea
  cases s.getArea lab with
  | none => rfl
  | some conv3 =>
      dsimp only
      split
      · rfl
      · rfl

theorem destroyOrUpdate_events_mono (s : TownState) (lab : String) :
    s.events ⊆ (destroyOrUpdateArea s lab).events := by
  unfold destroyOrUpdateArea
  cases s.getArea lab with
  | none => exact fun _ hx => hx
  | some conv3 =>
      dsimp only
      split
      · intro x hx; simp [hx]
      · intro x hx; simp [hx]

theorem destroyOrUpdate_not_empty (s : TownState) (lab : String)
    (conv3 : ServerConversationArea) (h : s.getArea lab = some conv3)
    (hne : conv3.occupantsByID.length ≠ 0) :
    destroyOrUpdateArea s lab =
      emitEvent s (TownEvent.conversationAreaUpdated lab) := by
  unfold destroyOrUpdateArea
  rw [h]
  simp [hne]

theorem boxes_destroyOrUpdate (s : TownState) (lab : String) :
    List.Sublist (boxes (destroyOrUpdateArea s lab)) (boxes s) := by
  unfold destroyOrUpdateArea
  cases s.getArea lab with
  | none => exact List.Sublist.refl _
  | some conv3 =>
      dsimp only
      split
      · exact List.Sublist.map (fun a => a.boundingBox)
          (eraseFirstArea_sublist s.conversationAreas lab)
      · exact List.Sublist.refl _

theorem getPlayer_updPlayer_isSome (s : TownState) (pid0 : String)
    (f : Player → Player) (pid : String) (hf : ∀ q, (f q).id = q.id) :
    ((updPlayer s pid0 f).getPlayer pid).isSome = (s.getPlayer pid).isSome := by
  by_cases h : pid = pid0
  · subst h
    rw [getPlayer_updPlayer_self s pid f hf]
    simp [Option.isSome_map]
  · rw [getPlayer_updPlayer_ne s pid0 pid f hf h]

/-- The admin branch of removePlayerFromConversationArea after the occupant
removal: demotion, permission event, forced Public status, accept-all
cascade and the final destroy-or-update step. Provided every pending
request names this area and a present player, every requester is accepted. -/
theorem removeAdminTail_spec (s1 : TownState) (pid lab : String)
    (conv1 : ServerConversationArea)
    (hA1 : s1.getArea lab = some conv1)
    (hp : (s1.getPlayer pid).isSome = true)
    (hL : ∀ r ∈ conv1.joinRequests, r.conversationLabel = lab)
    (hPs : ∀ r ∈ conv1.joinRequests, (s1.getPlayer r.playerId).isSome = true) :
    ((destroyOrUpdateArea (acceptAllJoinRequests
        (updArea (emitEvent (updPlayer s1 pid demoteF)
          (TownEvent.playerPermissionUpdated pid)) lab setPublicF)
        ((((updArea (emitEvent (updPlayer s1 pid demoteF)
          (TownEvent.playerPermissionUpdated pid)) lab setPublicF).getArea lab).map
          (fun c => c.joinRequests)).getD [])) lab).getPlayer pid).map
        (fun q => q.permissions) = some PlayerPermissions.Normal ∧
    TownEvent.playerPermissionUpdated pid ∈
      (destroyOrUpdateArea (acceptAllJoinRequests
        (updArea (emitEvent (updPlayer s1 pid demoteF)
          (TownEvent.playerPermissionUpdated pid)) lab setPublicF)
        ((((updArea (emitEvent (updPlayer s1 pid demoteF)
          (TownEvent.playerPermissionUpdated pid)) lab setPublicF).getArea lab).map
          (fun c => c.joinRequests)).getD [])) lab).events ∧
    (∀ r ∈ conv1.joinRequests,
      ((destroyOrUpdateArea (acceptAllJoinRequests
        (updArea (emitEvent (updPlayer s1 pid demoteF)
          (TownEvent.playerPermissionUpdated pid)) lab setPublicF)
        ((((updArea (emitEvent (updPlayer s1 pid demoteF)
          (TownEvent.playerPermissionUpdated pid)) lab setPublicF).getArea lab).map
          (fun c => c.joinRequests)).getD [])) lab).getPlayer r.playerId).map
        (fun q => q.activeConversationArea) = some (some lab)) ∧
    (conv1.joinRequests ≠ [] →
      ∃ conv2, (destroyOrUpdateArea (acceptAllJoinRequests
        (updArea (emitEvent (updPlayer s1 pid demoteF)
          (TownEvent.playerPermissionUpdated pid)) lab setPublicF)
        ((((updArea (emitEvent (updPlayer s1 pid demoteF)
          (TownEvent.playerPermissionUpdated pid)) lab setPublicF).getArea lab).map
          (fun c => c.joinRequests)).getD [])) lab).getArea lab = some conv2 ∧
        conv2.status = ConversationAreaStatus.Public ∧
        ∀ r ∈ conv1.joinRequests, r.playerId ∈ conv2.occupantsByID) := by
  have hscA : (updArea (emitEvent (updPlayer s1 pid demoteF)
      (TownEvent.playerPermissionUpdated pid)) lab setPublicF).getArea lab =
      some (setPublicF conv1) := by
    rw [getArea_updArea_self _ lab setPublicF (fun a => rfl)]
    simp only [getArea_emitEvent, getArea_updPlayer]
    rw [hA1]
    rfl
  rw [hscA]
  simp only [Option.map_some', Option.getD_some]
  have hscP : ∀ q : String,
      ((updArea (emitEvent (updPlayer s1 pid demoteF)
        (TownEvent.playerPermissionUpdated pid)) lab setPublicF).getPlayer q).isSome =
      (s1.getPlayer q).isSome := by
    intro q
    simp only [getPlayer_updArea, getPlayer_emitEvent]
    exact getPlayer_updPlayer_isSome s1 pid demoteF q (fun _ => rfl)
  obtain ⟨conv2, hA2, hst2, ⟨ext, hocc2⟩, hmem2, hperm2, hdisj2, hself2, hev2⟩ :=
    acceptAll_spec (setPublicF conv1).joinRequests
      (updArea (emitEvent (updPlayer s1 pid demoteF)
        (TownEvent.playerPermissionUpdated pid)) lab setPublicF)
      lab (setPublicF conv1) hscA
      (fun r hr => hL r hr)
      (fun r hr => by rw [hscP]; exact hPs r hr)
  refine ⟨?_, ?_, ?_, ?_⟩
  · rw [destroyOrUpdate_getPlayer, hperm2 pid]
    simp only [getPlayer_updArea, getPlayer_emitEvent]
    rw [getPlayer_updPlayer_self s1 pid demoteF (fun _ => rfl)]
    obtain ⟨q, hq⟩ := Option.isSome_iff_exists.mp hp
    rw [hq]
    rfl
  · apply destroyOrUpdate_events_mono
    apply hev2
    simp only [events_updArea, events_emitEvent]
    simp
  · intro r hr
    rw [destroyOrUpdate_getPlayer]
    exact hself2 r hr
  · intro hne
    obtain ⟨r0, hr0⟩ := List.exists_mem_of_ne_nil conv1.joinRequests hne
    have hr0mem : r0.playerId ∈ conv2.occupantsByID := hmem2 r0 hr0
    have hlen : conv2.occupantsByID.length ≠ 0 := by
      intro hzero
      rw [List.length_eq_zero] at hzero
      rw [hzero] at hr0mem
      exact absurd hr0mem (List.not_mem_nil _)
    rw [destroyOrUpdate_not_empty _ lab conv2 hA2 hlen]
    refine ⟨conv2, ?_, hst2, hmem2⟩
    simp only [getArea_emitEvent]
    exact hA2

/-- C6 (amended form, proved below as the claim theorem): if the removed
player held Admin, the call demotes them (emitting the permission event),
forces the area to Public, and accepts every pending join request whose
player is still present; with every pending requester present, each one
ends up in the occupant list with membership set and the area survives. -/
theorem removePlayer_admin_cascade (s : TownState) (p : Player) (lab : String)
    (conv : ServerConversationArea)
    (h1 : s.getPlayer p.id = some p)
    (h2 : p.permissions = PlayerPermissions.Admin)
    (h3 : s.getArea lab = some conv)
    (h4 : ∀ r ∈ conv.joinRequests, r.conversationLabel = lab)
    (h5 : ∀ r ∈ conv.joinRequests, (s.getPlayer r.playerId).isSome = true)
    (h6 : p.activeJoinRequest = none) :
    (((removePlayerFromConversationArea s p lab).getPlayer p.id).map
        (fun q => q.permissions) = some PlayerPermissions.Normal) ∧
    TownEvent.playerPermissionUpdated p.id ∈
      (removePlayerFromConversationArea s p lab).events ∧
    (∀ r ∈ conv.joinRequests,
      ((removePlayerFromConversationArea s p lab).getPlayer r.playerId).map
        (fun q => q.activeConversationArea) = some (some lab)) ∧
    (conv.joinRequests ≠ [] →
      ∃ conv2, (removePlayerFromConversationArea s p lab).getArea lab = some conv2 ∧
        conv2.status = ConversationAreaStatus.Public ∧
        ∀ r ∈ conv.joinRequests, r.playerId ∈ conv2.occupantsByID) := by
  by_cases hcont : conv.occupantsByID.contains p.id = true
  · have hEQ : removePlayerFromConversationArea s p lab =
        destroyOrUpdateArea (acceptAllJoinRequests
          (updArea (emitEvent (updPlayer (updArea s lab (eraseOccupantF p.id))
            p.id demoteF) (TownEvent.playerPermissionUpdated p.id)) lab setPublicF)
          ((((updArea (emitEvent (updPlayer (updArea s lab (eraseOccupantF p.id))
            p.id demoteF) (TownEvent.playerPermissionUpdated p.id)) lab
            setPublicF).getArea lab).map (fun c => c.joinRequests)).getD [])) lab := by
      simp only [removePlayerFromConversationArea, h3, h6, h2, hcont, if_true]
    have hA1 : (updArea s lab (eraseOccupantF p.id)).getArea lab =
        some (eraseOccupantF p.id conv) := by
      rw [getArea_updArea_self s lab (eraseOccupantF p.id) (fun a => rfl), h3]
      rfl
    have hp : ((updArea s lab (eraseOccupantF p.id)).getPlayer p.id).isSome = true := by
      simp only [getPlayer_updArea]
      rw [h1]
      rfl
    have h5' : ∀ r ∈ (eraseOccupantF p.id conv).joinRequests,
        ((updArea s lab (eraseOccupantF p.id)).getPlayer r.playerId).isSome = true := by
      intro r hr
      simp only [getPlayer_updArea]
      exact h5 r hr
    rw [hEQ]
    exact removeAdminTail_spec (updArea s lab (eraseOccupantF p.id)) p.id lab
      (eraseOccupantF p.id conv) hA1 hp h4 h5'
  · have hEQ : removePlayerFromConversationArea s p lab =
        destroyOrUpdateArea (acceptAllJoinRequests
          (updArea (emitEvent (updPlayer s p.id demoteF)
            (TownEvent.playerPermissionUpdated p.id)) lab setPublicF)
          ((((updArea (emitEvent (updPlayer s p.id demoteF)
            (TownEvent.playerPermissionUpdated p.id)) lab
            setPublicF).getArea lab).map (fun c => c.joinRequests)).getD [])) lab := by
      have hcont2 : conv.occupantsByID.contains p.id = false := by
        simpa using hcont
      simp only [removePlayerFromConversationArea, h3, h6, h2, hcont2,
        Bool.false_eq_true, if_false, if_true]
    have hp : (s.getPlayer p.id).isSome = true := by rw [h1]; rfl
    rw [hEQ]
    exact removeAdminTail_spec s p.id lab conv h3 hp h4 h5

/-! Lemmas about addConversationArea. -/

theorem addConversationArea_guard_fail (s : TownState)
    (ca : ServerConversationArea) (pid : String)
    (h : s.conversationAreas.any (fun e => e.label = ca.label) = true ∨
      ca.topic = some "" ∨
      (∃ m : Int, ca.maxOccupants = some m ∧ m < 0) ∨
      s.conversationAreas.any
        (fun e => boxesOverlap e.boundingBox ca.boundingBox) = true) :
    addConversationArea s ca pid = (false, s) := by
  unfold addConversationArea
  by_cases h1 : s.conversationAreas.any (fun e => e.label = ca.label) = true
  · rw [if_pos h1]
  · rw [if_neg h1]
    by_cases h2 : ca.topic = some ""
    · rw [if_pos h2]
    · rw [if_neg h2]
      by_cases h3 : (ca.maxOccupants.map
          (fun m => decide (m ≠ 0) && decide (m ≤ 0))).getD false = true
      · rw [if_pos h3]
      · rw [if_neg h3]
        by_cases h4 : s.conversationAreas.any
            (fun e => boxesOverlap e.boundingBox ca.boundingBox) = true
        · rw [if_pos h4]
        · exfalso
          rcases h with h | h | ⟨m, hm, hneg⟩ | h
          · exact h1 h
          · exact h2 h
          · apply h3
            rw [hm]
            simp only [Option.map_some', Option.getD_some, Bool.and_eq_true,
              decide_eq_true_eq]
            omega
          · exact h4 h

theorem addConversationArea_success_eq (s : TownState)
    (ca : ServerConversationArea) (pid : String)
    (h1 : s.conversationAreas.any (fun e => e.label = ca.label) = false)
    (h2 : ca.topic ≠ some "")
    (h3 : (ca.maxOccupants.map (fun m => decide (m ≠ 0) && decide (m ≤ 0))).getD
      false = false)
    (h4 : s.conversationAreas.any
      (fun e => boxesOverlap e.boundingBox ca.boundingBox) = false) :
    addConversationArea s ca pid =
      (true,
        let s1 := { s with conversationAreas := s.conversationAreas ++ [ca] }
        let s2 := { s1 with players := s1.players.map (fun p =>
          if p.isWithin ca then { p with activeConversationArea := some ca.label }
          else p) }
        let s3 := updArea s2 ca.label (fun c => { c with
          occupantsByID := (s.players.filter
            (fun p => p.isWithin ca)).map (fun p => p.id) })
        let s4 :=
          if ca.status = ConversationAreaStatus.AvailableToRequest then
            emitEvent (updPlayer s3 pid
              (fun p => { p with permissions := PlayerPermissions.Admin }))
              (TownEvent.playerPermissionUpdated pid)
          else s3
        emitEvent s4 (TownEvent.conversationAreaUpdated ca.label)) := by
  unfold addConversationArea
  simp only [h1, h2, h3, h4, Bool.false_eq_true, if_false, ite_false]

theorem addConversationArea_success_guards (s : TownState)
    (ca : ServerConversationArea) (pid : String)
    (h : (addConversationArea s ca pid).1 = true) :
    s.conversationAreas.any (fun e => e.label = ca.label) = false ∧
    ca.topic ≠ some "" ∧
    (ca.maxOccupants.map (fun m => decide (m ≠ 0) && decide (m ≤ 0))).getD
      false = false ∧
    s.conversationAreas.any
      (fun e => boxesOverlap e.boundingBox ca.boundingBox) = false := by
  by_cases h1 : s.conversationAreas.any (fun e => e.label = ca.label) = true
  · rw [addConversationArea_guard_fail s ca pid (Or.inl h1)] at h
    exact absurd h (by simp)
  · by_cases h2 : ca.topic = some ""
    · rw [addConversationArea_guard_fail s ca pid (Or.inr (Or.inl h2))] at h
      exact absurd h (by simp)
    · by_cases h3 : (ca.maxOccupants.map
          (fun m => decide (m ≠ 0) && decide (m ≤ 0))).getD false = true
      · exfalso
        have hg : ∃ m : Int, ca.maxOccupants = some m ∧ m < 0 := by
          cases hmax : ca.maxOccupants with
          | none => rw [hmax] at h3; simp at h3
          | some m =>
              rw [hmax] at h3
              simp only [Option.map_some', Option.getD_some, Bool.and_eq_true,
                decide_eq_true_eq] at h3
              exact ⟨m, rfl, by omega⟩
        rw [addConversationArea_guard_fail s ca pid (Or.inr (Or.inr (Or.inl hg)))] at h
        exact absurd h (by simp)
      · by_cases h4 : s.conversationAreas.any
            (fun e => boxesOverlap e.boundingBox ca.boundingBox) = true
        · rw [addConversationArea_guard_fail s ca pid
            (Or.inr (Or.inr (Or.inr h4)))] at h
          exact absurd h (by simp)
        · exact ⟨Bool.not_eq_true _ ▸ (by simpa using h1),
            h2, Bool.not_eq_true _ ▸ (by simpa using h3),
            Bool.not_eq_true _ ▸ (by simpa using h4)⟩

theorem addConversationArea_success_area (s : TownState)
    (ca : ServerConversationArea) (pid : String)
    (h : (addConversationArea s ca pid).1 = true) :
    ((addConversationArea s ca pid).2).getArea ca.label =
      some { ca with occupantsByID := (s.players.filter
        (fun p => p.isWithin ca)).map (fun p => p.id) } := by
  obtain ⟨h1, h2, h3, h4⟩ := addConversationArea_success_guards s ca pid h
  rw [addConversationArea_success_eq s ca pid h1 h2 h3 h4]
  dsimp only
  have hfindnone : s.conversationAreas.find? (fun c => c.label = ca.label) = none := by
    rw [List.find?_eq_none]
    intro x hx
    simp only [decide_eq_true_eq]
    intro hlab
    have : s.conversationAreas.any (fun e => e.label = ca.label) = true :=
      List.any_eq_true.mpr ⟨x, hx, by simp [hlab]⟩
    rw [h1] at this
    exact absurd this (by simp)
  by_cases hst : ca.status = ConversationAreaStatus.AvailableToRequest
  · simp only [hst, if_true, getArea_emitEvent, getArea_updPlayer]
    rw [getArea_updArea_self _ ca.label
      (fun c => { c with occupantsByID := (s.players.filter
        (fun p => p.isWithin ca)).map (fun p => p.id) }) (fun a => rfl)]
    show ((TownState.getArea _ ca.label).map _) = _
    unfold TownState.getArea
    dsimp only
    rw [List.find?_append, hfindnone]
    simp [List.find?, hst]
  · simp only [hst, if_false, getArea_emitEvent, ite_false]
    rw [getArea_updArea_self _ ca.label
      (fun c => { c with occupantsByID := (s.players.filter
        (fun p => p.isWithin ca)).map (fun p => p.id) }) (fun a => rfl)]
    show ((TownState.getArea _ ca.label).map _) = _
    unfold TownState.getArea
    dsimp only
    rw [List.find?_append, hfindnone]
    simp [List.find?]

/-! Boxes preservation lemmas for every inbound operation (the spatial
invariant below only needs that no operation but addConversationArea ever
introduces a bounding box). -/

theorem boxes_removePlayer_sub (s : TownState) (p : Player) (lab : String) :
    List.Sublist (boxes (removePlayerFromConversationArea s p lab)) (boxes s) := by
  unfold removePlayerFromConversationArea
  cases hA : s.getArea lab with
  | none => exact List.Sublist.refl _
  | some conv =>
      dsimp only
      refine List.Sublist.trans (boxes_destroyOrUpdate _ lab) ?_
      have hbx : ∀ s2 : TownState, boxes s2 = boxes s →
          boxes (if p.permissions = PlayerPermissions.Admin then
            acceptAllJoinRequests
              (updArea (emitEvent (updPlayer s2 p.id demoteF)
                (TownEvent.playerPermissionUpdated p.id)) lab setPublicF)
              ((((updArea (emitEvent (updPlayer s2 p.id demoteF)
                (TownEvent.playerPermissionUpdated p.id)) lab
                setPublicF).getArea lab).map (fun c => c.joinRequests)).getD [])
          else s2) = boxes s := by
        intro s2 h2
        split
        · rw [boxes_acceptAll, boxes_updArea _ lab setPublicF (fun a => rfl)]
          simp only [boxes_emitEvent, boxes_updPlayer]
          exact h2
        · exact h2
      have hb1 : ∀ s1 : TownState, boxes s1 = boxes s →
          boxes (match p.activeJoinRequest with
            | some pjr =>
                if conv.joinRequests.any
                    (fun joinRequest => joinRequest.id = pjr.id) then
                  (removeJoinRequest s1 pjr).2
                else s1
            | none => s1) = boxes s := by
        intro s1 h1
        cases p.activeJoinRequest with
        | none => exact h1
        | some pjr =>
            dsimp only
            split
            · rw [boxes_removeJoinRequest]; exact h1
            · exact h1
      have hb0 : boxes (if conv.occupantsByID.contains p.id = true then
          updArea s lab (eraseOccupantF p.id) else s) = boxes s := by
        split
        · exact boxes_updArea s lab (eraseOccupantF p.id) (fun a => rfl)
        · rfl
      rw [hbx _ (hb1 _ hb0)]

@[simp] theorem conversationAreas_updPlayer (s : TownState) (pid : String)
    (f : Player → Player) : (updPlayer s pid f).conversationAreas =
    s.conversationAreas := rfl

theorem sublist_boxes_ite (b : Prop) [Decidable b] (X Y s : TownState)
    (hx : List.Sublist (boxes X) (boxes s))
    (hy : List.Sublist (boxes Y) (boxes s)) :
    List.Sublist (boxes (if b then X else Y)) (boxes s) := by
  by_cases h : b
  · rw [if_pos h]; exact hx
  · rw [if_neg h]; exact hy

theorem boxes_updatePlayerLocation_sub (s : TownState) (playerId : String)
    (location : UserLocation) :
    List.Sublist (boxes (updatePlayerLocation s playerId location)) (boxes s) := by
  unfold updatePlayerLocation
  cases hP : s.getPlayer playerId with
  | none => exact List.Sublist.refl _
  | some q =>
      dsimp only
      set s1 := updPlayer s playerId
        (fun p => { p with location := location }) with hs1
      have hb1 : boxes s1 = boxes s := rfl
      set conversation := s1.conversationAreas.find?
        (fun conv => some conv.label = location.conversationLabel) with hconv
      set prevConversation :=
        (Option.map (fun p => p.activeConversationArea)
          (s1.getPlayer playerId)).getD none with hprev
      set s2 := if conversation = none ∨
          Option.map (fun c => c.status) conversation =
            some ConversationAreaStatus.Public then
        updPlayer s1 playerId (fun p => { p with
          location := location,
          activeConversationArea := Option.map (fun c => c.label) conversation })
        else s1 with hs2
      have hb2 : boxes s2 = boxes s := by
        rw [hs2]
        split
        · simp only [boxes_updPlayer]; rw [hb1]
        · rw [hb1]
      clear hs2 hprev hconv hs1
      clear_value s2 prevConversation conversation s1
      apply sublist_boxes_ite
      · simp only [boxes_updPlayer]
        rw [hb1]
      · simp only [boxes_emitEvent]
        have hstep4 : ∀ s3 : TownState, List.Sublist (boxes s3) (boxes s) →
            ∀ o : Option JoinRequest,
            List.Sublist (boxes (match o with
              | some ajr =>
                  if some ajr.conversationLabel ≠
                      Option.map (fun c => c.label) conversation then
                    (removeJoinRequest s3 ajr).2
                  else s3
              | none => s3)) (boxes s) := by
          intro s3 h3 o
          cases o with
          | none => exact h3
          | some ajr =>
              dsimp only
              apply sublist_boxes_ite
              · rw [boxes_removeJoinRequest]; exact h3
              · exact h3
        apply hstep4
        apply sublist_boxes_ite
        · have hsa : List.Sublist (boxes (match prevConversation with
              | some prevLabel =>
                  match s2.getPlayer playerId with
                  | some playerRecord =>
                      removePlayerFromConversationArea s2 playerRecord prevLabel
                  | none => s2
              | none => s2)) (boxes s) := by
            cases prevConversation with
            | none => rw [hb2]
            | some prevLabel =>
                dsimp only
                cases s2.getPlayer playerId with
                | none => rw [hb2]
                | some playerRecord =>
                    dsimp only
                    refine List.Sublist.trans
                      (boxes_removePlayer_sub s2 playerRecord prevLabel) ?_
                    rw [hb2]
          cases conversation with
          | none => exact hsa
          | some c =>
              dsimp only
              simp only [boxes_emitEvent]
              apply sublist_boxes_ite
              · rw [boxes_updArea _ c.label
                  (fun conv => { conv with
                    occupantsByID := conv.occupantsByID ++ [playerId] })
                  (fun a => rfl)]
                simp only [boxes_updPlayer]
                exact hsa
              · simp only [boxes_updPlayer]
                exact hsa
        · rw [hb2]

theorem boxes_destroySession_sub (s : TownState) (session : PlayerSession) :
    List.Sublist (boxes (destroySession s session)) (boxes s) := by
  unfold destroySession
  dsimp only
  cases s.getPlayer session.playerId with
  | none => exact List.Sublist.refl _
  | some player =>
      dsimp only
      cases player.activeConversationArea with
      | none => exact List.Sublist.refl _
      | some conversation =>
          dsimp only
          exact boxes_removePlayer_sub _ player conversation

theorem boxes_createJoinRequest (s : TownState) (lab pid freshId : String) :
    boxes ((createJoinRequest s lab pid freshId).2) = boxes s := by
  unfold createJoinRequest
  cases hA : s.getArea lab with
  | none => rfl
  | some conv =>
      cases hP : s.getPlayer pid with
      | none => rfl
      | some player =>
          dsimp only
          split
          · rfl
          · split
            · rfl
            · dsimp only
              simp only [boxes_emitEvent]
              split
              · rw [boxes_removeJoinRequest]
                simp only [boxes_emitEvent, boxes_updPlayer]
                exact boxes_updArea s conv.label
                  (fun c => { c with joinRequests := c.joinRequests ++
                    [{ id := freshId, playerId := pid,
                       conversationLabel := conv.label }] }) (fun a => rfl)
              · simp only [boxes_emitEvent, boxes_updPlayer]
                exact boxes_updArea s conv.label
                  (fun c => { c with joinRequests := c.joinRequests ++
                    [{ id := freshId, playerId := pid,
                       conversationLabel := conv.label }] }) (fun a => rfl)

theorem boxes_updateJoinRequest (s : TownState) (pid : String) (decision : Bool)
    (jq : JoinRequest) :
    boxes ((updateJoinRequest s pid decision jq).2) = boxes s := by
  unfold updateJoinRequest
  cases hP : s.getPlayer pid with
  | none => rfl
  | some player =>
      dsimp only
      split
      · rfl
      · split
        · rfl
        · split
          · exact boxes_acceptJoinRequest s jq
          · exact boxes_removeJoinRequest s jq

theorem boxes_updateConversationArea (s : TownState) (lab pid : String)
    (status : Option ConversationAreaStatus) (maxOccupants : Option Int) :
    boxes ((updateConversationArea s lab pid status maxOccupants).2) = boxes s := by
  unfold updateConversationArea
  cases hA : s.getArea lab with
  | none => rfl
  | some conv =>
      cases hP : s.getPlayer pid with
      | none => rfl
      | some player =>
          dsimp only
          split
          · rfl
          · split
            · rfl
            · split
              · rfl
              · dsimp only
                simp only [boxes_emitEvent]
                have hb1 : ∀ s1 : TownState, boxes s1 = boxes s →
                    boxes (updArea s1 lab
                      (fun c => { c with maxOccupants := maxOccupants })) =
                      boxes s := by
                  intro s1 h1
                  rw [boxes_updArea s1 lab
                    (fun c => { c with maxOccupants := maxOccupants })
                    (fun a => rfl), h1]
                have hb0 : boxes (match status with
                    | some st => updArea s lab (fun c => { c with status := st })
                    | none => s) = boxes s := by
                  cases status with
                  | none => rfl
                  | some st =>
                      exact boxes_updArea s lab
                        (fun c => { c with status := st }) (fun a => rfl)
                have hb2 := hb1 _ hb0
                have hb3 : ∀ s2 : TownState, boxes s2 = boxes s →
                    ∀ o : Option ServerConversationArea,
                    boxes (match o with
                      | some ca =>
                          if ca.status = ConversationAreaStatus.DoNotDisturb ∨
                              (ca.status =
                                ConversationAreaStatus.AvailableToRequest ∧
                              ca.maxOccupants =
                                some (ca.occupantsByID.length : Int)) then
                            removeAllJoinRequests s2 ca.joinRequests
                          else s2
                      | none => s2) = boxes s := by
                  intro s2 h2 o
                  cases o with
                  | none => exact h2
                  | some ca =>
                      dsimp only
                      split
                      · rw [boxes_removeAll]; exact h2
                      · exact h2
                have hb5 : ∀ s3 : TownState, boxes s3 = boxes s →
                    ∀ o : Option ServerConversationArea,
                    boxes (match o with
                      | some ca =>
                          if ca.status = ConversationAreaStatus.Public then
                            emitEvent (updPlayer s3 pid
                              (fun p => { p with
                                permissions := PlayerPermissions.Normal }))
                              (TownEvent.playerPermissionUpdated pid)
                          else s3
                      | none => s3) = boxes s := by
                  intro s3 h3 o
                  cases o with
                  | none => exact h3
                  | some ca =>
                      dsimp only
                      split
                      · simp only [boxes_emitEvent, boxes_updPlayer]; exact h3
                      · exact h3
                apply hb5
                apply hb3
                exact hb2

theorem boxes_addPlayer (s : TownState) (newPlayer : Player)
    (sessionToken : String) (videoResult : Except String String) :
    boxes ((addPlayer s newPlayer sessionToken videoResult).2) = boxes s := by
  unfold addPlayer
  cases videoResult with
  | error e => rfl
  | ok tok => rfl

/-! The spatial invariant and its preservation. -/

theorem areasDisjoint_iff_boxes (s : TownState) :
    areasDisjoint s ↔ List.Pairwise
      (fun b1 b2 => boxesOverlap b1 b2 = false) (boxes s) := by
  unfold areasDisjoint boxes
  rw [List.pairwise_map]

theorem areasDisjoint_of_boxes_sublist (s2 s1 : TownState)
    (h : List.Sublist (boxes s2) (boxes s1)) (hd : areasDisjoint s1) :
    areasDisjoint s2 := by
  rw [areasDisjoint_iff_boxes] at hd ⊢
  exact List.Pairwise.sublist h hd

theorem boxes_addConversationArea_success (s : TownState)
    (ca : ServerConversationArea) (pid : String)
    (h1 : s.conversationAreas.any (fun e => e.label = ca.label) = false)
    (h2 : ca.topic ≠ some "")
    (h3 : (ca.maxOccupants.map (fun m => decide (m ≠ 0) && decide (m ≤ 0))).getD
      false = false)
    (h4 : s.conversationAreas.any
      (fun e => boxesOverlap e.boundingBox ca.boundingBox) = false) :
    boxes ((addConversationArea s ca pid).2) = boxes s ++ [ca.boundingBox] := by
  rw [addConversationArea_success_eq s ca pid h1 h2 h3 h4]
  dsimp only
  split
  · simp only [boxes_emitEvent, boxes_updPlayer]
    rw [boxes_updArea _ ca.label
      (fun c => { c with occupantsByID := (s.players.filter
        (fun p => p.isWithin ca)).map (fun p => p.id) }) (fun a => rfl)]
    unfold boxes
    simp [List.map_append]
  · simp only [boxes_emitEvent]
    rw [boxes_updArea _ ca.label
      (fun c => { c with occupantsByID := (s.players.filter
        (fun p => p.isWithin ca)).map (fun p => p.id) }) (fun a => rfl)]
    unfold boxes
    simp [List.map_append]

theorem areasDisjoint_addConversationArea (s : TownState)
    (ca : ServerConversationArea) (pid : String) (hd : areasDisjoint s) :
    areasDisjoint ((addConversationArea s ca pid).2) := by
  by_cases h1 : s.conversationAreas.any (fun e => e.label = ca.label) = true
  · rw [addConversationArea_guard_fail s ca pid (Or.inl h1)]; exact hd
  · by_cases h2 : ca.topic = some ""
    · rw [addConversationArea_guard_fail s ca pid (Or.inr (Or.inl h2))]; exact hd
    · by_cases h3 : (ca.maxOccupants.map
          (fun m => decide (m ≠ 0) && decide (m ≤ 0))).getD false = true
      · have hg : ∃ m : Int, ca.maxOccupants = some m ∧ m < 0 := by
          cases hmax : ca.maxOccupants with
          | none => rw [hmax] at h3; simp at h3
          | some m =>
              rw [hmax] at h3
              simp only [Option.map_some', Option.getD_some, Bool.and_eq_true,
                decide_eq_true_eq] at h3
              exact ⟨m, rfl, by omega⟩
        rw [addConversationArea_guard_fail s ca pid (Or.inr (Or.inr (Or.inl hg)))]
        exact hd
      · by_cases h4 : s.conversationAreas.any
            (fun e => boxesOverlap e.boundingBox ca.boundingBox) = true
        · rw [addConversationArea_guard_fail s ca pid (Or.inr (Or.inr (Or.inr h4)))]
          exact hd
        · have h1f : s.conversationAreas.any
              (fun e => e.label = ca.label) = false := by simpa using h1
          have h3f : (ca.maxOccupants.map
              (fun m => decide (m ≠ 0) && decide (m ≤ 0))).getD false = false := by
            simpa using h3
          have h4f : s.conversationAreas.any
              (fun e => boxesOverlap e.boundingBox ca.boundingBox) = false := by
            simpa using h4
          rw [areasDisjoint_iff_boxes,
            boxes_addConversationArea_success s ca pid h1f h2 h3f h4f]
          rw [List.pairwise_append]
          refine ⟨(areasDisjoint_iff_boxes s).mp hd, by simp, ?_⟩
          intro b1 hb1 b2 hb2
          rw [List.mem_singleton] at hb2
          subst hb2
          unfold boxes at hb1
          rw [List.mem_map] at hb1
          obtain ⟨e, he, hbe⟩ := hb1
          subst hbe
          by_contra hcon
          have : s.conversationAreas.any
              (fun e => boxesOverlap e.boundingBox ca.boundingBox) = true :=
            List.any_eq_true.mpr ⟨e, he, by
              cases hov : boxesOverlap e.boundingBox ca.boundingBox with
              | true => simp
              | false => exact absurd hov hcon⟩
          rw [h4f] at this
          exact absurd this (by simp)

/-- Every inbound command preserves the pairwise-disjoint-boxes invariant:
only addConversationArea introduces a box and it is checked against every
existing one. -/
theorem step_areasDisjoint {s s2 : TownState} (hstep : Step s s2)
    (hd : areasDisjoint s) : areasDisjoint s2 := by
  cases hstep with
  | join id userName sessionToken videoResult =>
      exact areasDisjoint_of_boxes_sublist _ s
        (boxes_addPlayer s _ _ _ ▸ List.Sublist.refl _) hd
  | leave session =>
      exact areasDisjoint_of_boxes_sublist _ s (boxes_destroySession_sub s session) hd
  | move playerId location =>
      exact areasDisjoint_of_boxes_sublist _ s
        (boxes_updatePlayerLocation_sub s playerId location) hd
  | createArea conversationArea playerId =>
      exact areasDisjoint_addConversationArea s conversationArea playerId hd
  | updateArea conversationLabel playerId status maxOccupants =>
      exact areasDisjoint_of_boxes_sublist _ s
        (boxes_updateConversationArea s conversationLabel playerId status
          maxOccupants ▸ List.Sublist.refl _) hd
  | createRequest conversationAreaLabel playerId freshId =>
      exact areasDisjoint_of_boxes_sublist _ s
        (boxes_createJoinRequest s conversationAreaLabel playerId freshId ▸
          List.Sublist.refl _) hd
  | resolveRequest playerId decision joinRequest =>
      exact areasDisjoint_of_boxes_sublist _ s
        (boxes_updateJoinRequest s playerId decision joinRequest ▸
          List.Sublist.refl _) hd

/-! Claim theorems. -/

/-- C3: in every reachable controller state, the bounding boxes of distinct
active conversation areas never overlap, where overlap is the strict
separating-axis predicate boxesOverlap of the source (areas that merely
touch at an edge are permitted). -/
theorem c3_reachable_areas_disjoint (s : TownState) (h : Reachable s) :
    areasDisjoint s := by
  induction h with
  | refl => exact List.Pairwise.nil
  | tail hab hstep ih => exact step_areasDisjoint hstep ih

/-- Witness for C3 at a concrete one-step trace: creating one area from the
initial state yields a reachable state whose areas are pairwise disjoint. -/
theorem c3_witness :
    Reachable ((addConversationArea initialTown witnessArea "w").2) ∧
    areasDisjoint ((addConversationArea initialTown witnessArea "w").2) :=
  ⟨Relation.ReflTransGen.single (Step.createArea initialTown witnessArea "w"),
    c3_reachable_areas_disjoint _
      (Relation.ReflTransGen.single (Step.createArea initialTown witnessArea "w"))⟩

/-- C1 counterexample: when the video-credential call fails, the join call
does fail, but the player and the session pushed before the await remain
registered, so the controller state is not unchanged (the claim asserts no
player and no session is added). -/
theorem c1_counterexample :
    (addPlayer initialTown pl1 "t1" (Except.error "videoFail")).2.players = [pl1] ∧
    (addPlayer initialTown pl1 "t1" (Except.error "videoFail")).2.sessions =
      [({ playerId := "p1", sessionToken := "t1", videoToken := none } :
        PlayerSession)] ∧
    initialTown.players = [] ∧ initialTown.sessions = [] :=
  ⟨rfl, rfl, rfl, rfl⟩

/-- C1 amended: a failed video-credential call propagates the failure and
emits no event, but the player and the freshly constructed session remain
on the controller lists (the pushes precede the await in the source). -/
theorem c1_amended (s : TownState) (newPlayer : Player) (sessionToken : String)
    (e : String) :
    (addPlayer s newPlayer sessionToken (Except.error e)).1 = Except.error e ∧
    (addPlayer s newPlayer sessionToken (Except.error e)).2 =
      { s with
        players := s.players ++ [newPlayer],
        sessions := s.sessions ++
          [(⟨newPlayer.id, sessionToken, none⟩ : PlayerSession)] } :=
  ⟨rfl, rfl⟩

/-- C4 counterexample: a move declaring the label of a DoNotDisturb area
leaves the declared label in the stored location (the claim says the label
reverts to the previous one, here none) and emits no player-moved event
(the claim says one is emitted). -/
theorem c4_counterexample :
    dndTown.getPlayer "pd" = some pd ∧
    pd.location.conversationLabel = none ∧
    dndArea.status = ConversationAreaStatus.DoNotDisturb ∧
    (updatePlayerLocation dndTown "pd" (locAt 50 50 (some "D"))).players =
      [{ pd with location := locAt 50 50 (some "D") }] ∧
    (updatePlayerLocation dndTown "pd" (locAt 50 50 (some "D"))).events = [] := by
  refine ⟨rfl, rfl, rfl, ?_, ?_⟩ <;> decide

/-- C4 amended: when the declared label names a DoNotDisturb area, the call
keeps the declared label in the stored location (the source overwrites
player.location before re-reading it, so the declared label is what
survives; an empty-string label collapses to undefined), leaves every
conversation area and every membership unchanged, and returns before any
event is emitted. -/
theorem c4_amended (s : TownState) (pid : String) (location : UserLocation)
    (conv : ServerConversationArea)
    (hfound : (s.getPlayer pid).isSome = true)
    (hA : s.conversationAreas.find?
      (fun c => some c.label = location.conversationLabel) = some conv)
    (hst : conv.status = ConversationAreaStatus.DoNotDisturb) :
    (updatePlayerLocation s pid location).conversationAreas =
      s.conversationAreas ∧
    (updatePlayerLocation s pid location).events = s.events ∧
    ((updatePlayerLocation s pid location).getPlayer pid).map
      (fun p => p.location) =
      some { location with conversationLabel := jsLabelOr location.conversationLabel } ∧
    ((updatePlayerLocation s pid location).getPlayer pid).map
      (fun p => p.activeConversationArea) =
      (s.getPlayer pid).map (fun p => p.activeConversationArea) := by
  obtain ⟨q, hq⟩ := Option.isSome_iff_exists.mp hfound
  have hEQ : updatePlayerLocation s pid location =
      updPlayer (updPlayer s pid (fun p => { p with location := location })) pid
        (fun p => { p with location := { location with
          conversationLabel := jsLabelOr location.conversationLabel } }) := by
    unfold updatePlayerLocation
    rw [hq]
    dsimp only
    rw [show (updPlayer s pid (fun p => { p with location := location })).conversationAreas.find?
        (fun conv => some conv.label = location.conversationLabel) = some conv from hA]
    rw [if_pos (by simp [hst])]
  rw [hEQ]
  refine ⟨rfl, rfl, ?_, ?_⟩
  · rw [getPlayer_updPlayer_self _ pid
      (fun p => { p with location := { location with
        conversationLabel := jsLabelOr location.conversationLabel } }) (fun p => rfl)]
    rw [getPlayer_updPlayer_self _ pid
      (fun p => { p with location := location }) (fun p => rfl)]
    rw [hq]
    rfl
  · rw [getPlayer_updPlayer_self _ pid
      (fun p => { p with location := { location with
        conversationLabel := jsLabelOr location.conversationLabel } }) (fun p => rfl)]
    rw [getPlayer_updPlayer_self _ pid
      (fun p => { p with location := location }) (fun p => rfl)]
    rw [hq]
    rfl

/-- Witness for C4 at a concrete input: the DoNotDisturb move on dndTown. -/
theorem c4_witness :
    (dndTown.getPlayer "pd").isSome = true ∧
    (updatePlayerLocation dndTown "pd" (locAt 50 50 (some "D"))).events =
      dndTown.events :=
  ⟨by decide, (c4_amended dndTown "pd" (locAt 50 50 (some "D")) dndArea
    (by decide) (by decide) rfl).2.1⟩

/-- C5 counterexample: a proposed area whose maxOccupants is 0 (present and
not positive) is accepted: the JS truthiness guard lets 0 through, so the
call returns true instead of the claimed false. -/
theorem c5_counterexample :
    capZeroArea.maxOccupants = some 0 ∧ ((0 : Int) ≤ 0) ∧
    (addConversationArea initialTown capZeroArea "p1").1 = true :=
  ⟨rfl, by decide, rfl⟩

/-- C5 amended: addConversationArea returns false with no state mutation
and no event whenever the label duplicates an active area, the topic is the
empty string, the capacity is present and strictly negative (a capacity of
exactly 0 escapes the guard by JS truthiness), or the proposed box overlaps
an existing active area under the strict-inequality predicate. -/
theorem c5_amended (s : TownState) (ca : ServerConversationArea) (pid : String)
    (h : s.conversationAreas.any (fun e => e.label = ca.label) = true ∨
      ca.topic = some "" ∨
      (∃ m : Int, ca.maxOccupants = some m ∧ m < 0) ∨
      s.conversationAreas.any
        (fun e => boxesOverlap e.boundingBox ca.boundingBox) = true) :
    addConversationArea s ca pid = (false, s) :=
  addConversationArea_guard_fail s ca pid h

/-- Witness for C5 at a concrete input: a negative capacity is refused with
the state unchanged. -/
theorem c5_witness :
    negCapArea.maxOccupants = some (-1) ∧
    addConversationArea initialTown negCapArea "w" = (false, initialTown) :=
  ⟨rfl, c5_amended initialTown negCapArea "w"
    (Or.inr (Or.inr (Or.inl ⟨-1, rfl, by decide⟩)))⟩

/-- C7 counterexample: denying a join request that is pending on no area
returns true, not false, because the area it names and the player it names
both still exist (the source never checks the pending list). -/
theorem c7_counterexample :
    (∀ a ∈ noPendingTown.conversationAreas, ∀ r ∈ a.joinRequests, r.id ≠ "rx") ∧
    (removeJoinRequest noPendingTown
      { id := "rx", playerId := "pd", conversationLabel := "E" }).1 = true :=
  ⟨by decide, rfl⟩

/-- C7 amended: removeJoinRequest returns false exactly when the area named
by the request or the requesting player no longer exists; whether the
request is still pending is never consulted, so denying an already-denied
request whose area and player survive returns true (harmlessly: the filter
is a no-op and the player back-reference is cleared); the operation is a
total function, so it never throws. -/
theorem c7_amended (s : TownState) (jq : JoinRequest) :
    (removeJoinRequest s jq).1 = false ↔
      (s.getArea jq.conversationLabel = none ∨ s.getPlayer jq.playerId = none) := by
  constructor
  · intro h
    by_contra hcon
    push_neg at hcon
    obtain ⟨h1, h2⟩ := hcon
    obtain ⟨conv, hA⟩ := Option.ne_none_iff_exists'.mp h1
    obtain ⟨player, hP⟩ := Option.ne_none_iff_exists'.mp h2
    rw [removeJoinRequest_eq s jq conv player hA hP] at h
    exact absurd h (by simp)
  · intro h
    rw [removeJoinRequest_none s jq h]

/-- C8: the resolve gate succeeds exactly when a non-admin denies a request
carrying their own player id (a non-admin can never accept, not even their
own request), or an admin resolves a request whose id is listed on the
conversation area their membership back-reference names; every other
combination returns false with the state unchanged. -/
theorem c8_resolve_authorization (s : TownState) (pid : String) (decision : Bool)
    (jq : JoinRequest) (p : Player) (hp : s.getPlayer pid = some p) :
    ((updateJoinRequest s pid decision jq).1 = true ↔
      ((p.permissions ≠ PlayerPermissions.Admin ∧ decision = false ∧
        jq.playerId = pid) ∨
       (p.permissions = PlayerPermissions.Admin ∧
        ∃ conv, p.activeConversationArea.bind (fun lab => s.getArea lab) =
            some conv ∧
          conv.joinRequests.any (fun r => r.id = jq.id) = true))) ∧
    ((updateJoinRequest s pid decision jq).1 = false →
      (updateJoinRequest s pid decision jq).2 = s) := by
  unfold updateJoinRequest
  rw [hp]
  dsimp only
  by_cases hadm : p.permissions = PlayerPermissions.Admin
  · rw [if_neg (by simp [hadm])]
    by_cases hx : ((p.activeConversationArea.bind (fun lab => s.getArea lab)).map
        (fun ca => ca.joinRequests.any (fun r => r.id = jq.id))).getD false = true
    · rw [if_neg (fun hcon => hcon.2 hx)]
      have h1 : (if decision = true then
          (true, (acceptJoinRequest s jq).2) else
          (true, (removeJoinRequest s jq).2)).1 = true := by
        split <;> rfl
      refine ⟨⟨fun _ => Or.inr ⟨hadm, ?_⟩, fun _ => h1⟩, fun hfalse => ?_⟩
      · cases hbind : p.activeConversationArea.bind (fun lab => s.getArea lab) with
        | none => rw [hbind] at hx; exact absurd hx (by simp)
        | some conv =>
            rw [hbind] at hx
            simp only [Option.map_some', Option.getD_some] at hx
            exact ⟨conv, rfl, hx⟩
      · rw [h1] at hfalse
        exact absurd hfalse (by simp)
    · rw [if_pos ⟨hadm, fun hcon => hx hcon⟩]
      refine ⟨⟨fun hfalse => absurd hfalse (by simp), fun hr => ?_⟩, fun _ => rfl⟩
      exfalso
      rcases hr with ⟨hnadm, _, _⟩ | ⟨_, conv, hconv, hany⟩
      · exact hnadm hadm
      · apply hx
        rw [hconv]
        simpa using hany
  · by_cases hdec : decision = true
    · rw [if_pos ⟨hadm, Or.inl hdec⟩]
      refine ⟨⟨fun hfalse => absurd hfalse (by simp), fun hr => ?_⟩, fun _ => rfl⟩
      exfalso
      rcases hr with ⟨_, hdf, _⟩ | ⟨hadm2, _⟩
      · rw [hdec] at hdf; exact absurd hdf (by simp)
      · exact hadm hadm2
    · by_cases hown : pid = jq.playerId
      · rw [if_neg (fun hcon => hcon.2.elim hdec (fun hne => hne hown))]
        rw [if_neg (fun hcon => hadm hcon.1)]
        rw [if_neg hdec]
        exact ⟨⟨fun _ => Or.inl ⟨hadm, by simpa using hdec, hown.symm⟩,
          fun _ => rfl⟩, fun hfalse => absurd hfalse (by simp)⟩
      · rw [if_pos ⟨hadm, Or.inr hown⟩]
        refine ⟨⟨fun hfalse => absurd hfalse (by simp), fun hr => ?_⟩, fun _ => rfl⟩
        exfalso
        rcases hr with ⟨_, _, hid⟩ | ⟨hadm2, _⟩
        · exact hown hid.symm
        · exact hadm hadm2

/-- Witness for C8 at a concrete input: the non-admin player pd denies
their own request and the call reports success. -/
theorem c8_witness :
    noPendingTown.getPlayer "pd" = some pd ∧
    (updateJoinRequest noPendingTown "pd" false
      { id := "rr", playerId := "pd", conversationLabel := "E" }).1 = true :=
  ⟨rfl, (c8_resolve_authorization noPendingTown "pd" false
    { id := "rr", playerId := "pd", conversationLabel := "E" } pd rfl).1.mpr
    (Or.inl ⟨by decide, rfl, rfl⟩)⟩

/-- C9: a successful updateConversationArea overwrites the maxOccupants of
the area with the argument unconditionally, so a call that omits the
argument clears a previously-set limit instead of preserving it. -/
theorem c9_maxOccupants_overwritten (s : TownState) (lab pid : String)
    (status : Option ConversationAreaStatus) (maxOccupants : Option Int)
    (h : (updateConversationArea s lab pid status maxOccupants).1 = true) :
    ∃ conv2, ((updateConversationArea s lab pid status maxOccupants).2).getArea
      lab = some conv2 ∧ conv2.maxOccupants = maxOccupants := by
  unfold updateConversationArea at h ⊢
  revert h
  cases hA : s.getArea lab with
  | none =>
      intro h
      exact absurd (show false = true from h) (by decide)
  | some conv =>
      cases hP : s.getPlayer pid with
      | none =>
          intro h
          exact absurd (show false = true from h) (by decide)
      | some player =>
          intro h
          dsimp only at h ⊢
          by_cases g1 : (player.activeConversationArea ≠ some lab ∨
              ¬ conv.occupantsByID.contains pid = true)
          · rw [if_pos g1] at h; exact absurd h (by simp)
          · rw [if_neg g1] at h ⊢
            by_cases g2 : player.permissions ≠ PlayerPermissions.Admin
            · rw [if_pos g2] at h; exact absurd h (by simp)
            · rw [if_neg g2] at h ⊢
              by_cases g3 : (maxOccupants.map (fun m =>
                  decide (m < (conv.occupantsByID.length : Int)))).getD false = true
              · rw [if_pos g3] at h; exact absurd h (by simp)
              · rw [if_neg g3] at h ⊢
                clear h
                dsimp only
                set s1 := (match status with
                  | some st => updArea s lab (fun c => { c with status := st })
                  | none => s) with hs1
                have hc1 : ∃ c1, s1.getArea lab = some c1 := by
                  rw [hs1]
                  cases status with
                  | none => exact ⟨conv, hA⟩
                  | some st =>
                      rw [getArea_updArea_self s lab
                        (fun c => { c with status := st }) (fun a => rfl), hA]
                      exact ⟨_, rfl⟩
                obtain ⟨c1, hgc1⟩ := hc1
                have hc2 : (updArea s1 lab
                    (fun c => { c with maxOccupants := maxOccupants })).getArea lab =
                    some { c1 with maxOccupants := maxOccupants } := by
                  rw [getArea_updArea_self s1 lab
                    (fun c => { c with maxOccupants := maxOccupants })
                    (fun a => rfl), hgc1]
                  rfl
                rw [hc2]
                dsimp only
                have hc3 : ∃ c3, (if
                    ({ c1 with maxOccupants := maxOccupants } :
                      ServerConversationArea).status =
                        ConversationAreaStatus.DoNotDisturb ∨
                      (({ c1 with maxOccupants := maxOccupants } :
                        ServerConversationArea).status =
                        ConversationAreaStatus.AvailableToRequest ∧
                      ({ c1 with maxOccupants := maxOccupants } :
                        ServerConversationArea).maxOccupants =
                        some (({ c1 with maxOccupants := maxOccupants } :
                          ServerConversationArea).occupantsByID.length : Int)) then
                    removeAllJoinRequests (updArea s1 lab
                      (fun c => { c with maxOccupants := maxOccupants }))
                      ({ c1 with maxOccupants := maxOccupants } :
                        ServerConversationArea).joinRequests
                  else (updArea s1 lab
                    (fun c => { c with maxOccupants := maxOccupants }))).getArea lab =
                    some c3 ∧ c3.maxOccupants = maxOccupants := by
                  split
                  · have hmap := removeAll_getArea_proj
                      (fun c => c.maxOccupants) (fun c jr => rfl)
                      ({ c1 with maxOccupants := maxOccupants } :
                        ServerConversationArea).joinRequests
                      (updArea s1 lab
                        (fun c => { c with maxOccupants := maxOccupants })) lab
                    rw [hc2] at hmap
                    obtain ⟨c3, hgc3, hmax3⟩ := Option.map_eq_some'.mp hmap
                    exact ⟨c3, hgc3, hmax3⟩
                  · exact ⟨{ c1 with maxOccupants := maxOccupants }, hc2, rfl⟩
                obtain ⟨c3, hgc3, hmax3⟩ := hc3
                rw [hgc3]
                dsimp only
                split
                · exact ⟨c3, by
                    simp only [getArea_emitEvent, getArea_updPlayer]
                    exact hgc3, hmax3⟩
                · exact ⟨c3, by
                    simp only [getArea_emitEvent]
                    exact hgc3, hmax3⟩

/-- Witness for C9 at a concrete input: the admin pm updates area M (which
had capacity 5) supplying only a status; the limit is cleared to none. -/
theorem c9_witness :
    (updateConversationArea adminTown "M" "pm"
      (some ConversationAreaStatus.Public) none).1 = true ∧
    ∃ conv2, ((updateConversationArea adminTown "M" "pm"
      (some ConversationAreaStatus.Public) none).2).getArea "M" = some conv2 ∧
      conv2.maxOccupants = none :=
  ⟨by decide, c9_maxOccupants_overwritten adminTown "M" "pm"
    (some ConversationAreaStatus.Public) none (by decide)⟩

/-- C2 counterexample along a reachable trace: two players join (spawning
at the origin) and a capacity-1 area covering the origin is successfully
created; both players are auto-added, so the occupant count 2 exceeds the
capacity 1 immediately after a successful addConversationArea. -/
theorem c2_counterexample :
    Reachable twoPlayerTown ∧
    (addConversationArea twoPlayerTown capOneArea "p1").1 = true ∧
    ((addConversationArea twoPlayerTown capOneArea "p1").2.getArea "A").map
      (fun a => (a.occupantsByID.length, a.maxOccupants)) = some (2, some 1) ∧
    ¬ ((2 : Int) ≤ 1) :=
  ⟨Relation.ReflTransGen.tail
    (Relation.ReflTransGen.single
      (Step.join initialTown "p1" "alice" "t1" (Except.ok "v1")))
    (Step.join (addPlayer initialTown pl1 "t1" (Except.ok "v1")).2
      "p2" "bob" "t2" (Except.ok "v2")),
   by decide, by with_unfolding_all decide, by decide⟩

/-- C2 amended: the creation path performs no capacity check against the
players it auto-adds, so after a successful addConversationArea the
occupancy respects the capacity only when at most capacity-many players
stand within the box; acceptJoinRequest adds exactly one occupant, so a
call that found the area strictly below capacity leaves it at or below
capacity (a call on an area already at capacity still succeeds and exceeds
it, as the counterexample shows along the admin-removal cascade inputs). -/
theorem c2_amended :
    (∀ (s : TownState) (ca : ServerConversationArea) (pid : String)
      (conv2 : ServerConversationArea) (m : Int),
      (addConversationArea s ca pid).1 = true →
      ((addConversationArea s ca pid).2).getArea ca.label = some conv2 →
      conv2.maxOccupants = some m →
      ((s.players.filter (fun p => p.isWithin ca)).length : Int) ≤ m →
      (conv2.occupantsByID.length : Int) ≤ m) ∧
    (∀ (s : TownState) (jq : JoinRequest)
      (conv conv2 : ServerConversationArea) (m : Int),
      s.getArea jq.conversationLabel = some conv →
      conv.maxOccupants = some m →
      ((conv.occupantsByID.length : Int)) < m →
      ((acceptJoinRequest s jq).2).getArea jq.conversationLabel = some conv2 →
      (conv2.occupantsByID.length : Int) ≤ m) := by
  constructor
  · intro s ca pid conv2 m hsucc hget hmax hcount
    have harea := addConversationArea_success_area s ca pid hsucc
    rw [hget] at harea
    have hconv2 : conv2 = { ca with occupantsByID := (s.players.filter
        (fun p => p.isWithin ca)).map (fun p => p.id) } := by
      injection harea
    rw [hconv2]
    simpa using hcount
  · intro s jq conv conv2 m hA hmax hlt hget
    cases hP : s.getPlayer jq.playerId with
    | none =>
        rw [acceptJoinRequest_none s jq (Or.inr hP)] at hget
        rw [hA] at hget
        have hceq := Option.some.inj hget
        rw [← hceq]
        omega
    | some player =>
        have hshape := acceptJoinRequest_getArea_shape s jq conv player hA hP
        rw [hget] at hshape
        simp only [Option.map_some'] at hshape
        have hshape2 := Option.some.inj hshape
        have hocc : conv2.occupantsByID =
            conv.occupantsByID ++ [jq.playerId] := by
          have := congrArg (fun t => t.1) hshape2
          simpa [areaShape] using this
        rw [hocc]
        simp only [List.length_append, List.length_cons, List.length_nil]
        omega

/-- Witness for C2 at concrete inputs: an empty town accepts a capacity-1
area with no players within (0 occupants), and accepting a request on area
M (1 occupant, capacity 5) yields at most 5 occupants. -/
theorem c2_witness :
    (∃ conv2, (addConversationArea initialTown capOneArea "w").2.getArea "A" =
      some conv2 ∧ (conv2.occupantsByID.length : Int) ≤ 1) ∧
    (∃ conv2, (acceptJoinRequest adminTown
      { id := "rz", playerId := "pm", conversationLabel := "M" }).2.getArea "M" =
      some conv2 ∧ (conv2.occupantsByID.length : Int) ≤ 5) := by
  constructor
  · refine ⟨{ capOneArea with occupantsByID := [] }, by decide, ?_⟩
    exact c2_amended.1 initialTown capOneArea "w"
      { capOneArea with occupantsByID := [] } 1 (by decide) (by decide)
      (by decide) (by decide)
  · refine ⟨{ areaM with occupantsByID := ["pm", "pm"] }, by decide, ?_⟩
    exact c2_amended.2 adminTown
      { id := "rz", playerId := "pm", conversationLabel := "M" }
      areaM { areaM with occupantsByID := ["pm", "pm"] } 5 (by decide)
      (by decide) (by decide) (by decide)

/-- C6 counterexample along a reachable trace: the admin p1 is removed from
area A while the orphaned request r1 (its player p2 already disconnected)
is still pending; the cascade fails to accept it, the area is destroyed,
and the requester ends up in no occupant list, contradicting the claim
that every pending request is accepted. -/
theorem c6_counterexample :
    Reachable orphanTown ∧
    orphanTown.getPlayer "p1" = some p1AtRemove ∧
    p1AtRemove.permissions = PlayerPermissions.Admin ∧
    (orphanTown.getArea "A").map (fun a => a.joinRequests) = some [reqR1] ∧
    (removePlayerFromConversationArea orphanTown p1AtRemove "A").conversationAreas
      = [] ∧
    (removePlayerFromConversationArea orphanTown p1AtRemove "A").getPlayer "p2"
      = none := by
  refine ⟨?_, by with_unfolding_all decide, by decide,
    by with_unfolding_all decide, by with_unfolding_all decide,
    by with_unfolding_all decide⟩
  exact Relation.ReflTransGen.tail (Relation.ReflTransGen.tail
    (Relation.ReflTransGen.tail (Relation.ReflTransGen.tail
      (Relation.ReflTransGen.tail (Relation.ReflTransGen.tail
        (Relation.ReflTransGen.single
          (Step.join initialTown "p1" "alice" "t1" (Except.ok "v1")))
        (Step.join (addPlayer initialTown pl1 "t1" (Except.ok "v1")).2
          "p2" "bob" "t2" (Except.ok "v2")))
      (Step.move twoPlayerTown "p2" (locAt 20 20 none)))
    (Step.createArea (updatePlayerLocation twoPlayerTown "p2" (locAt 20 20 none))
      gatedArea "p1"))
    (Step.move (addConversationArea
      (updatePlayerLocation twoPlayerTown "p2" (locAt 20 20 none))
      gatedArea "p1").2 "p2" (locAt 1 1 none)))
    (Step.createRequest (updatePlayerLocation (addConversationArea
      (updatePlayerLocation twoPlayerTown "p2" (locAt 20 20 none))
      gatedArea "p1").2 "p2" (locAt 1 1 none)) "A" "p2" "r1"))
    (Step.leave requestPendingTown sess2)

/-- Witness for C6 at a concrete input: removing the admin pa from area G
(one pending request by the still-present player pb) accepts the request:
the area survives with status Public and pb among its occupants. -/
theorem c6_witness :
    c6wTown.getPlayer "pa" = some c6wAdmin ∧
    c6wAdmin.permissions = PlayerPermissions.Admin ∧
    ∃ conv2, (removePlayerFromConversationArea c6wTown c6wAdmin "G").getArea "G" =
      some conv2 ∧ conv2.status = ConversationAreaStatus.Public ∧
      ∀ r ∈ c6wArea.joinRequests, r.playerId ∈ conv2.occupantsByID :=
  ⟨rfl, rfl,
    (removePlayer_admin_cascade c6wTown c6wAdmin "G" c6wArea rfl rfl rfl
      (by decide) (by decide) rfl).2.2.2 (by decide)⟩

/-- C10: the claimed invariant fails on a reachable trace: after p2 (who
held a pending join request but no membership) disconnects, the request r1
is still pending on area A while p2 is no longer in the players list, and
getJoinRequests hits its assertion (the source assert(reqPlayer) throws). -/
theorem c10_orphaned_request_assertion :
    Reachable orphanTown ∧
    (orphanTown.getArea "A").map (fun a => a.joinRequests) = some [reqR1] ∧
    orphanTown.getPlayer "p2" = none ∧
    getJoinRequests orphanTown "A" "p1" =
      JoinRequestListResult.assertionFailed := by
  refine ⟨?_, by with_unfolding_all decide, by with_unfolding_all decide,
    by with_unfolding_all decide⟩
  exact Relation.ReflTransGen.tail (Relation.ReflTransGen.tail
    (Relation.ReflTransGen.tail (Relation.ReflTransGen.tail
      (Relation.ReflTransGen.tail (Relation.ReflTransGen.tail
        (Relation.ReflTransGen.single
          (Step.join initialTown "p1" "alice" "t1" (Except.ok "v1")))
        (Step.join (addPlayer initialTown pl1 "t1" (Except.ok "v1")).2
          "p2" "bob" "t2" (Except.ok "v2")))
      (Step.move twoPlayerTown "p2" (locAt 20 20 none)))
    (Step.createArea (updatePlayerLocation twoPlayerTown "p2" (locAt 20 20 none))
      gatedArea "p1"))
    (Step.move (addConversationArea
      (updatePlayerLocation twoPlayerTown "p2" (locAt 20 20 none))
      gatedArea "p1").2 "p2" (locAt 1 1 none)))
    (Step.createRequest (updatePlayerLocation (addConversationArea
      (updatePlayerLocation twoPlayerTown "p2" (locAt 20 20 none))
      gatedArea "p1").2 "p2" (locAt 1 1 none)) "A" "p2" "r1"))
    (Step.leave requestPendingTown sess2)
